import Mathlib

/-!
# splinepy spline kernels: Bezier and NURBS capability interface

A shallow embedding of `src/cpp/splinepy/splines/bezier.hpp`,
`src/cpp/splinepy/splines/nurbs.hpp` and
`src/cpp/splinepy/py/py_knot_vector.hpp`.

Modelling conventions.

* A `double` is a rational number: arithmetic is exact, there is no rounding.
  The NURBS kernel is written over a scalar type `α` for its knots,
  coordinates and weights, so that the same code can be read in another
  arithmetic: `Real64` adds the two infinities and NaN, for the IEEE value
  of a division by zero; `Binary64` adds the finite range of a `double`, for
  overflow.
* `std::size_t` and `int` counters are natural numbers and integers.
* A raw buffer (`const double*`, `double*`, `int*`) is a list; reading or
  writing outside the list is undefined behaviour in C++ and is `none` here.
* A counting loop `for (i = 0; i < n; ++i)` is `forLoop n body`.
* A C++ exception is the `Except.error` value carrying the message passed to
  the throwing helper.
-/

namespace Splinepy

/-! ## Raw buffers and loops -/

/-- Read `buf[i]`; reading out of bounds has no defined result. -/
def readAt {α : Type} (buf : List α) (i : Nat) : Option α := buf[i]?

/-- Execute `buf[i] = v`; writing out of bounds has no defined result. -/
def writeAt {α : Type} (buf : List α) (i : Nat) (v : α) : Option (List α) :=
  if i < buf.length then some (buf.set i v) else none

/-- The loop `for (i = 0; i < n; ++i) body`, threading the state `s`. -/
def forLoop {σ : Type} (n : Nat) (body : Nat → σ → Option σ) (s : σ) : Option σ :=
  match n with
  | 0 => some s
  | k + 1 => (forLoop k body s).bind (body k)

/-- Conversion of a `double` to `std::size_t`: truncation toward zero,
undefined for values at or below `-1`. Counts are unbounded naturals here,
so the upper end of the `std::size_t` range is not modelled. -/
def toSizeT (x : ℚ) : Option Nat :=
  if -1 < x then some ⌊x⌋.toNat else none

/-! ## Bezier state -/

/-- The `Coordinate_` of a Bezier: `std::conditional_t<(dim > 1),
bezman::Point<dim>, double>`. -/
inductive Coordinate where
  | scalar (x : ℚ)
  | point (xs : List ℚ)
  deriving DecidableEq, Repr

/-- A value-initialised `Coordinate_`. -/
def Coordinate.zero (dim : Nat) : Coordinate :=
  if 1 < dim then .point (List.replicate dim 0) else .scalar 0

/-- The entry `c[j]` of a `bezman::Point`. -/
def Coordinate.entry (c : Coordinate) (j : Nat) : Option ℚ :=
  match c with
  | .point xs => readAt xs j
  | .scalar _ => none

/-- The assignment `c[j] = v` on a `bezman::Point`. -/
def Coordinate.setEntry (c : Coordinate) (j : Nat) (v : ℚ) : Option Coordinate :=
  match c with
  | .point xs => (writeAt xs j v).map Coordinate.point
  | .scalar _ => none

/-- The value of a scalar `Coordinate_` (a plain `double`). -/
def Coordinate.value (c : Coordinate) : Option ℚ :=
  match c with
  | .scalar x => some x
  | .point _ => none

/-- The data members of `bezman::BezierSpline` that splinepy reads and
writes: `degrees` (read through `GetDegrees()`) and `control_points`. -/
structure BezierSpline where
  degrees : List Nat
  control_points : List Coordinate
  deriving DecidableEq, Repr

/-- The class `Bezier<para_dim, dim>`: the two template parameters and the
`Base_` sub-object. -/
structure Bezier where
  para_dim : Nat
  dim : Nat
  base : BezierSpline
  deriving DecidableEq, Repr

/-- `Bezier::RawPtrInitHelper` (bezier.hpp:46-69). The first loop stores the
truncated degrees and accumulates `ncps *= degrees[i] + 1`, a product taken
in `double` and converted back to `std::size_t`; the second loop reads
`ncps` control points. -/
def Bezier.RawPtrInitHelper (para_dim dim : Nat) (degrees control_points : List ℚ) :
    Option BezierSpline :=
  (forLoop para_dim
      (fun i st =>
        (readAt degrees i).bind fun d =>
        (toSizeT d).bind fun di =>
        (writeAt st.1 i di).bind fun bm =>
        (toSizeT ((st.2 : ℚ) * (d + 1))).bind fun n =>
        some (bm, n))
      (List.replicate para_dim 0, 1)).bind fun st =>
  let bm_degrees := st.1
  let ncps := st.2
  (forLoop ncps
      (fun i cps =>
        if 1 < dim then
          (readAt cps i).bind fun pt0 =>
          (forLoop dim
              (fun j pt =>
                (readAt control_points (i * dim + j)).bind fun v =>
                pt.setEntry j v)
              pt0).bind fun pt =>
          writeAt cps i pt
        else
          (readAt control_points i).bind fun v =>
          writeAt cps i (Coordinate.scalar v))
      (List.replicate ncps (Coordinate.zero dim))).bind fun bm_control_points =>
  some ⟨bm_degrees, bm_control_points⟩

/-- The raw-pointer constructor `Bezier(const double*, const double*)`
(bezier.hpp:72-73). -/
def Bezier.fromRaw (para_dim dim : Nat) (degrees control_points : List ℚ) :
    Option Bezier :=
  (Bezier.RawPtrInitHelper para_dim dim degrees control_points).map
    fun b => ⟨para_dim, dim, b⟩

/-- `Bezier::SplinepyNumberOfControlPoints` (bezier.hpp:109-111). -/
def Bezier.SplinepyNumberOfControlPoints (self : Bezier) : Int :=
  (self.base.control_points.length : Int)

/-- `Bezier::SplinepyCurrentProperties` (bezier.hpp:117-139): writes the
degrees and the control points into the caller's buffers and returns the two
buffers as they stand after the call. `knot_vectors` and `weights` are left
untouched and are not threaded. -/
def Bezier.SplinepyCurrentProperties (self : Bezier) (degrees control_points : List ℚ) :
    Option (List ℚ × List ℚ) :=
  (forLoop self.para_dim
      (fun i out =>
        (readAt self.base.degrees i).bind fun d =>
        writeAt out i (d : ℚ))
      degrees).bind fun degrees_out =>
  let ncps := self.base.control_points.length
  (forLoop ncps
      (fun i out =>
        if 1 < self.dim then
          forLoop self.dim
            (fun j out1 =>
              (readAt self.base.control_points i).bind fun c =>
              (c.entry j).bind fun v =>
              writeAt out1 (i * self.dim + j) v)
            out
        else
          (readAt self.base.control_points i).bind fun c =>
          c.value.bind fun v =>
          writeAt out i v)
      control_points).bind fun control_points_out =>
  some (degrees_out, control_points_out)

/-- The coordinate that the raw-buffer constructor stores at control-point
index `i` when it reads the flat buffer `cps`: row `i` of the row-major
buffer. Used to state what the constructor loop computes. -/
def storedCoord (dim : Nat) (cps : List ℚ) (i : Nat) : Coordinate :=
  if 1 < dim then .point ((cps.drop (i * dim)).take dim) else .scalar (cps.getD i 0)

/-! ## NURBS state -/

/-- Conversion of a `double` to `int` (SplineLib's `Degree_`): truncation
toward zero. -/
def toInt (x : ℚ) : Int := if 0 ≤ x then ⌊x⌋ else ⌈x⌉

/-- SplineLib's `ParameterSpace`: one knot vector and one degree per
parametric axis. -/
structure ParameterSpace (α : Type) where
  knot_vectors : List (List α)
  degrees : List Int
  deriving DecidableEq, Repr

/-- SplineLib's `WeightedVectorSpace<dim>`: a vector space of dimension
`dim + 1` whose coordinates are homogeneous, the weight last. -/
structure WeightedVectorSpace (α : Type) where
  coordinates : List (List α)
  deriving DecidableEq, Repr

/-- The constructor of SplineLib's `WeightedVectorSpace`. SplineLib is a
third-party library: its code is not under src/ and spec.md does not
describe it. nurbs.hpp shows what it relies on: a stored coordinate has
`dim + 1` entries with the weight last (`coord_named_phil[dim]`,
nurbs.hpp:215 and 280) and has to be projected to be un-weighted
(nurbs.hpp:209-211). The definition writes this out as homogeneous
coordinates: control point `x` with weight `w` is stored as
`(x_0 * w, ..., x_{dim-1} * w, w)`, each product taken in the arithmetic of
the scalar type `α`. -/
def WeightedVectorSpace.ofCoordinatesAndWeights {α : Type} [Mul α]
    (coordinates : List (List α)) (weights : List α) : WeightedVectorSpace α :=
  ⟨List.zipWith (fun c w => c.map (fun x => x * w) ++ [w]) coordinates weights⟩

/-- SplineLib's `WeightedVectorSpace::Project` (third-party, not under src/
and not described in spec.md), which nurbs.hpp:209-211 calls to un-weight a
stored coordinate: the first `dim` entries, each divided by the weight
stored at entry `dim`, each quotient taken in the arithmetic of the scalar
type `α`. -/
def WeightedVectorSpace.Project {α : Type} [Div α] (dim : Nat) (h : List α) :
    Option (List α) :=
  (readAt h dim).map fun w => (h.take dim).map fun x => x / w

/-- `GetNumberOfCoordinates` of the vector space. -/
def WeightedVectorSpace.GetNumberOfCoordinates {α : Type} (v : WeightedVectorSpace α) : Nat :=
  v.coordinates.length

/-- The `Base_` sub-object of a NURBS: `splinelib::sources::splines::Nurbs`,
holding the parameter space and the weighted vector space. -/
structure NurbsBase (α : Type) where
  parameter_space : ParameterSpace α
  weighted_vector_space : WeightedVectorSpace α
  deriving DecidableEq, Repr

/-- The class `Nurbs<para_dim, dim>`. -/
structure Nurbs (α : Type) where
  para_dim : Nat
  dim : Nat
  base : NurbsBase α
  deriving DecidableEq, Repr

/-- Loop state of the first loop of `Nurbs::RawPtrInitHelper`. -/
structure NurbsInitAxes (α : Type) where
  sl_degrees : List Int
  sl_knot_vectors : List (List α)
  ncps : Nat
  deriving DecidableEq, Repr

/-- `Nurbs::RawPtrInitHelper` (nurbs.hpp:75-134). `accepts` is the argument
validation done inside SplineLib's `KnotVector` and `ParameterSpace`
constructors (not under src/); a rejected input constructs nothing. The
knots, control points and weights are of the scalar type `α`; the degrees
are only truncated and counted with, and stay rational. -/
def Nurbs.RawPtrInitHelper {α : Type} [Zero α] [Mul α]
    (accepts : ParameterSpace α → Bool) (para_dim dim : Nat)
    (degrees : List ℚ) (knot_vectors : List (List α)) (control_points weights : List α) :
    Option (NurbsBase α) :=
  (forLoop para_dim
      (fun i (st : NurbsInitAxes α) =>
        (readAt degrees i).bind fun d =>
        (writeAt st.sl_degrees i (toInt d)).bind fun sl_degrees =>
        (readAt knot_vectors i).bind fun knot_vector =>
        let nkv := knot_vector.length
        (forLoop nkv
            (fun j (sl_knots : List α) =>
              (readAt knot_vector j).map fun k => sl_knots ++ [k])
            []).bind fun sl_knots =>
        (writeAt st.sl_knot_vectors i sl_knots).bind fun sl_knot_vectors =>
        (toSizeT ((st.ncps : ℚ) * ((nkv : ℚ) - d - 1))).bind fun ncps =>
        some ⟨sl_degrees, sl_knot_vectors, ncps⟩)
      ⟨List.replicate para_dim 0, List.replicate para_dim [], 1⟩).bind fun st =>
  let sl_parameter_space : ParameterSpace α := ⟨st.sl_knot_vectors, st.sl_degrees⟩
  if accepts sl_parameter_space then
    (forLoop st.ncps
        (fun i (acc : List (List α) × List α) =>
          (forLoop dim
              (fun j (control_point : List α) =>
                (readAt control_points (i * dim + j)).bind fun v =>
                writeAt control_point j v)
              (List.replicate dim 0)).bind fun control_point =>
          (readAt weights i).bind fun w =>
          some (acc.1 ++ [control_point], acc.2 ++ [w]))
        ([], [])).bind fun acc =>
    some ⟨sl_parameter_space,
      WeightedVectorSpace.ofCoordinatesAndWeights acc.1 acc.2⟩
  else none

/-- The raw-pointer constructor of `Nurbs` (nurbs.hpp:137-142). -/
def Nurbs.fromRaw {α : Type} [Zero α] [Mul α]
    (accepts : ParameterSpace α → Bool) (para_dim dim : Nat)
    (degrees : List ℚ) (knot_vectors : List (List α)) (control_points weights : List α) :
    Option (Nurbs α) :=
  (Nurbs.RawPtrInitHelper accepts para_dim dim degrees knot_vectors control_points
    weights).map fun b => ⟨para_dim, dim, b⟩

/-- The four outputs of `SplinepyCurrentProperties`. -/
structure Properties (α : Type) where
  degrees : List ℚ
  knot_vectors : List (List α)
  control_points : List α
  weights : List α
  deriving DecidableEq, Repr

/-- `Nurbs::SplinepyCurrentProperties` (nurbs.hpp:174-217). The arguments
are the caller's `degrees`, `control_points` and `weights` buffers;
`knot_vectors` is cleared by the code before it is filled, so its previous
content is not an input. -/
def Nurbs.SplinepyCurrentProperties {α : Type} [Div α] (self : Nurbs α)
    (degrees : List ℚ) (control_points weights : List α) : Option (Properties α) :=
  let parameter_space := self.base.parameter_space
  let vector_space := self.base.weighted_vector_space
  (forLoop self.para_dim
      (fun i out =>
        (readAt parameter_space.degrees i).bind fun d =>
        writeAt out i (d : ℚ))
      degrees).bind fun degrees_out =>
  (forLoop self.para_dim
      (fun i (kvs : List (List α)) =>
        (readAt parameter_space.knot_vectors i).bind fun core_kv =>
        let kvsize := core_kv.length
        (forLoop kvsize
            (fun j (kv : List α) => (readAt core_kv j).map fun k => kv ++ [k])
            []).bind fun kv =>
        some (kvs ++ [kv]))
      []).bind fun knot_vectors_out =>
  let ncps := vector_space.GetNumberOfCoordinates
  (forLoop ncps
      (fun i (out : List α × List α) =>
        (readAt vector_space.coordinates i).bind fun coord_named_phil =>
        (WeightedVectorSpace.Project self.dim coord_named_phil).bind fun projected_phil =>
        (forLoop self.dim
            (fun j cps =>
              (readAt projected_phil j).bind fun v =>
              writeAt cps (i * self.dim + j) v)
            out.1).bind fun cps =>
        (readAt coord_named_phil self.dim).bind fun w =>
        (writeAt out.2 i w).bind fun ws =>
        some (cps, ws))
      (control_points, weights)).bind fun out =>
  some ⟨degrees_out, knot_vectors_out, out.1, out.2⟩

/-- The control-point buffer that a round trip writes back: entry `p`, which
belongs to control point `p / dim`, is the input entry multiplied by that
point's weight and divided by it again, in the arithmetic of `α`. -/
def reweighted {α : Type} [Zero α] [Mul α] [Div α] (dim : Nat) (cps ws : List α) : List α :=
  (List.range cps.length).map fun p =>
    cps.getD p 0 * ws.getD (p / dim) 0 / ws.getD (p / dim) 0

/-! ## Rational basis evaluation -/

/-- A `double` with the IEEE special values: a finite value, the two
infinities, or NaN. Finite arithmetic is exact; there are no signed zeros. -/
inductive Real64 where
  | finite (q : ℚ)
  | posInf
  | negInf
  | nan
  deriving DecidableEq, Repr

/-- IEEE addition. -/
def Real64.add : Real64 → Real64 → Real64
  | .finite a, .finite b => .finite (a + b)
  | .nan, _ => .nan
  | _, .nan => .nan
  | .posInf, .negInf => .nan
  | .negInf, .posInf => .nan
  | .posInf, _ => .posInf
  | _, .posInf => .posInf
  | .negInf, _ => .negInf
  | _, .negInf => .negInf

/-- The infinity with the sign of `a`, or NaN when `a` is zero. -/
def Real64.signedInf (a : ℚ) : Real64 :=
  if a = 0 then .nan else if 0 < a then .posInf else .negInf

/-- IEEE multiplication; `0 * inf` is NaN. -/
def Real64.mul : Real64 → Real64 → Real64
  | .finite a, .finite b => .finite (a * b)
  | .nan, _ => .nan
  | _, .nan => .nan
  | .finite a, .posInf => Real64.signedInf a
  | .finite a, .negInf => Real64.signedInf (-a)
  | .posInf, .finite b => Real64.signedInf b
  | .negInf, .finite b => Real64.signedInf (-b)
  | .posInf, .posInf => .posInf
  | .negInf, .negInf => .posInf
  | .posInf, .negInf => .negInf
  | .negInf, .posInf => .negInf

/-- IEEE division; `x / 0` is an infinity for `x ≠ 0` and NaN for `x = 0`. -/
def Real64.div : Real64 → Real64 → Real64
  | .finite a, .finite b => if b = 0 then Real64.signedInf a else .finite (a / b)
  | .nan, _ => .nan
  | _, .nan => .nan
  | .finite _, .posInf => .finite 0
  | .finite _, .negInf => .finite 0
  | .posInf, .finite b => if 0 ≤ b then .posInf else .negInf
  | .negInf, .finite b => if 0 ≤ b then .negInf else .posInf
  | .posInf, .posInf => .nan
  | .posInf, .negInf => .nan
  | .negInf, .posInf => .nan
  | .negInf, .negInf => .nan

instance : Zero Real64 := ⟨.finite 0⟩
instance : One Real64 := ⟨.finite 1⟩
instance : Add Real64 := ⟨Real64.add⟩
instance : Mul Real64 := ⟨Real64.mul⟩
instance : Div Real64 := ⟨Real64.div⟩

/-- The largest finite `double`, `(2^53 - 1) * 2^971`. -/
def maxFinite : ℚ := (2 ^ 53 - 1) * 2 ^ 971

/-- Overflow of an arithmetic result: a finite value beyond the largest
finite `double` becomes the infinity of its sign. -/
def Real64.overflow : Real64 → Real64
  | .finite q =>
    if maxFinite < q then .posInf else if q < -maxFinite then .negInf else .finite q
  | r => r

/-- A `double` with its finite range: the values of `Real64`, with products
and quotients that overflow to infinity. Results inside the range are kept
exact, they are not rounded to 53 bits, so this arithmetic agrees with
IEEE-754 binary64 on every computation whose in-range results are
representable. -/
structure Binary64 where
  val : Real64
  deriving DecidableEq, Repr

instance : Zero Binary64 := ⟨⟨0⟩⟩
instance : Mul Binary64 := ⟨fun a b => ⟨(a.val * b.val).overflow⟩⟩
instance : Div Binary64 := ⟨fun a b => ⟨(a.val / b.val).overflow⟩⟩

/-- The `double` with the finite value `q`. -/
def Binary64.ofRat (q : ℚ) : Binary64 := ⟨.finite q⟩

/-- The member functions of SplineLib's `ParameterSpace` that the basis
evaluation calls (SplineLib is not under src/), taken as parameters. The
iteration `First() .. Behind()` over the non-zero basis functions is
numbered `0 .. count - 1`; the cache `unique_evaluations` only memoises
values and is not a separate input. -/
structure BasisFunctions (α : Type) where
  /-- Number of steps from `First()` to `Behind()`. -/
  count : ParameterSpace α → Nat
  /-- `(FindFirstNonZeroBasisFunction(u) + k.GetIndex()).GetIndex1d()`. -/
  index1d : ParameterSpace α → List α → Nat → Nat
  /-- `EvaluateBasisFunction` at the `k`-th non-zero basis function. -/
  evaluate : ParameterSpace α → List α → Nat → α

/-- The variables of the accumulation loop of the basis evaluation. -/
structure BasisLoopState (α : Type) where
  i : Nat
  W : α
  basis : List α
  support : List Int

/-- `Nurbs::SplinepyBasisAndSupport` (nurbs.hpp:245-296), over a scalar type
`α`. Returns the `basis` and `support` buffers as they stand after the call.
The code has no `throw`: the only way not to return is an out-of-bounds
access. -/
def Nurbs.SplinepyBasisAndSupport {α : Type} [Zero α] [One α] [Add α] [Mul α] [Div α]
    (lib : BasisFunctions α) (self : Nurbs α) (para_coord basis : List α)
    (support : List Int) : Option (List α × List Int) :=
  let parameter_space := self.base.parameter_space
  (forLoop self.para_dim
      (fun i (pc : List α) => (readAt para_coord i).bind fun u => writeAt pc i u)
      (List.replicate self.para_dim 0)).bind fun sl_para_coord =>
  (forLoop (lib.count parameter_space)
      (fun k (st : BasisLoopState α) =>
        let support_id := lib.index1d parameter_space sl_para_coord k
        let evaluated := lib.evaluate parameter_space sl_para_coord k
        (readAt self.base.weighted_vector_space.coordinates support_id).bind fun coordinate =>
        (readAt coordinate self.dim).bind fun w =>
        let N_times_w := evaluated * w
        (writeAt st.basis st.i N_times_w).bind fun basis1 =>
        (writeAt st.support st.i (support_id : Int)).bind fun support1 =>
        some ⟨st.i + 1, st.W + N_times_w, basis1, support1⟩)
      ⟨0, 0, basis, support⟩).bind fun st =>
  let last := st.i
  let W_inv := 1 / st.W
  (forLoop last
      (fun i (b : List α) => (readAt b i).bind fun x => writeAt b i (x * W_inv))
      st.basis).bind fun basis2 =>
  some (basis2, st.support)

/-- The weight `w` of control point `support_id`: the last entry of its
homogeneous coordinate. -/
def Nurbs.supportWeight {α : Type} [Zero α] (self : Nurbs α) (support_id : Nat) : α :=
  (self.base.weighted_vector_space.coordinates.getD support_id []).getD self.dim 0

/-- The numerator `N_k * w_k` of the `k`-th non-zero basis function. -/
def Nurbs.numerator {α : Type} [Zero α] [Mul α] (lib : BasisFunctions α) (self : Nurbs α)
    (para_coord : List α) (k : Nat) : α :=
  lib.evaluate self.base.parameter_space para_coord k
    * self.supportWeight (lib.index1d self.base.parameter_space para_coord k)

/-- The total weight `W`, accumulated from `0.` in iteration order. -/
def Nurbs.totalWeight {α : Type} [Zero α] [Add α] [Mul α] (lib : BasisFunctions α)
    (self : Nurbs α) (para_coord : List α) : α :=
  ((List.range (lib.count self.base.parameter_space)).map
    (self.numerator lib para_coord)).foldl (fun W x => W + x) 0

/-- Reading a spline with rational data as a spline over `Real64`. -/
def Nurbs.toReal64 (self : Nurbs ℚ) : Nurbs Real64 :=
  ⟨self.para_dim, self.dim,
    ⟨⟨self.base.parameter_space.knot_vectors.map (List.map Real64.finite),
        self.base.parameter_space.degrees⟩,
      ⟨self.base.weighted_vector_space.coordinates.map (List.map Real64.finite)⟩⟩⟩

/-- A sample of the library functions: the degree-one basis on one knot span
(two non-zero basis functions `1 - u` and `u`, control points `0` and `1`),
evaluated at `u = 1/2`. -/
def linearBasisAtHalf (α : Type) (half : α) : BasisFunctions α :=
  ⟨fun _ => 2, fun _ _ k => k, fun _ _ _ => half⟩

/-! ## Spline algebra of the Bezier kernel -/

/-- What the algebra operations see of an operand
`std::shared_ptr<SplinepyBase>`: the answers of its virtual member
functions. -/
structure SplinepyBase where
  SplinepySplineName : String
  SplinepyWhatAmI : String
  SplinepyParaDim : Int
  SplinepyDim : Int
  SplinepyIsRational : Bool
  deriving DecidableEq, Repr

/-- The class of a kernel that an algebra operation returns through
`std::make_shared<...>`: the class template and its two template arguments.
The geometry of the result is computed by bezman and is not modelled. -/
inductive Kernel where
  | Bezier (para_dim dim : Nat)
  | RationalBezier (para_dim dim : Nat)
  deriving DecidableEq, Repr

/-- `SplinepyParaDim` of a returned kernel (bezier.hpp:94). -/
def Kernel.SplinepyParaDim : Kernel → Int
  | .Bezier para_dim _ => (para_dim : Int)
  | .RationalBezier para_dim _ => (para_dim : Int)

/-- `SplinepyDim` of a returned kernel (bezier.hpp:96). -/
def Kernel.SplinepyDim : Kernel → Int
  | .Bezier _ dim => (dim : Int)
  | .RationalBezier _ dim => (dim : Int)

/-- `SplinepyIsRational` of a returned kernel: `kIsRational = false` for
`Bezier` (bezier.hpp:33, 107); `RationalBezier` is only declared in
bezier.hpp (line 25), the spec lists it among the variants with weights. -/
def Kernel.SplinepyIsRational : Kernel → Bool
  | .Bezier _ _ => false
  | .RationalBezier _ _ => true

/-- `Bezier::SplinepyParaDim` (bezier.hpp:94). -/
def Bezier.SplinepyParaDim (self : Bezier) : Int := (self.para_dim : Int)

/-- `Bezier::SplinepyDim` (bezier.hpp:96). -/
def Bezier.SplinepyDim (self : Bezier) : Int := (self.dim : Int)

/-- `Bezier::SplinepySplineName` (bezier.hpp:98). -/
def Bezier.SplinepySplineName (_self : Bezier) : String := "Bezier"

/-- `Bezier::SplinepyWhatAmI` (bezier.hpp:100-103). -/
def Bezier.SplinepyWhatAmI (self : Bezier) : String :=
  "Bezier, parametric dimension: " ++ toString self.SplinepyParaDim
    ++ ", physical dimension: " ++ toString self.SplinepyDim

/-- `Bezier::SplinepyIsRational` (bezier.hpp:107). -/
def Bezier.SplinepyIsRational (_self : Bezier) : Bool := false

/-- A Bezier seen through the `SplinepyBase` interface (`*this`). -/
def Bezier.asBase (self : Bezier) : SplinepyBase :=
  ⟨self.SplinepySplineName, self.SplinepyWhatAmI, self.SplinepyParaDim, self.SplinepyDim,
    self.SplinepyIsRational⟩

/-- Modelled from the spec: `splinepy::utils::PrintAndThrowError`
(utils/print.hpp, not under src/): violations raise an error with an
explanatory message. The error carries the message parts, joined. -/
def PrintAndThrowError {α : Type} (message : List String) : Except String α :=
  .error (" ".intercalate message)

/-- Modelled from the spec: `SplinepyBase::SplinepySplineNameMatches`
(splinepy_base.hpp, not under src/): the check "same spline family name,
else DimensionMismatch"; with `raise` set a mismatch raises the error with
the caller's description, otherwise the outcome is returned. -/
def SplinepySplineNameMatches (a b : SplinepyBase) (description : String) (raise : Bool) :
    Except String Bool :=
  if a.SplinepySplineName ≠ b.SplinepySplineName then
    if raise then .error description else .ok false
  else .ok true

/-- Modelled from the spec: `SplinepyBase::SplinepyParaDimMatches`
(splinepy_base.hpp, not under src/): the check "same parametric dimension,
else DimensionMismatch". -/
def SplinepyParaDimMatches (a b : SplinepyBase) (description : String) (raise : Bool) :
    Except String Bool :=
  if a.SplinepyParaDim ≠ b.SplinepyParaDim then
    if raise then .error description else .ok false
  else .ok true

/-- Modelled from the spec: `SplinepyBase::SplinepyDimMatches`
(splinepy_base.hpp, not under src/): the check "same physical dimension,
else DimensionMismatch". -/
def SplinepyDimMatches (a b : SplinepyBase) (description : String) (raise : Bool) :
    Except String Bool :=
  if a.SplinepyDim ≠ b.SplinepyDim then
    if raise then .error description else .ok false
  else .ok true

/-- `Bezier::SplinepyAdd` (bezier.hpp:208-228). -/
def Bezier.SplinepyAdd (self : Bezier) (a : SplinepyBase) : Except String Kernel :=
  (SplinepySplineNameMatches self.asBase a
    "Spline addition requires splines of the same time." true).bind fun _ =>
  (SplinepyParaDimMatches self.asBase a
    "Spline addition requires splines of the same parametric dimension." true).bind fun _ =>
  (SplinepyDimMatches self.asBase a
    "Spline addition requires splines of the same physical dimension" true).bind fun _ =>
  .ok (Kernel.Bezier self.para_dim self.dim)

/-- `Bezier::SplinepyMultiply` (bezier.hpp:171-204). -/
def Bezier.SplinepyMultiply (self : Bezier) (a : SplinepyBase) : Except String Kernel :=
  (SplinepySplineNameMatches self.asBase a
    "Spline multiplication requires splines of same type." true).bind fun _ =>
  (SplinepyParaDimMatches self.asBase a
    "Spline multiplication requires splines of same parametric dimension." true).bind fun _ =>
  (if a.SplinepyDim ≠ 1 then
    SplinepyDimMatches self.asBase a
      ("Spline multiplication requires splines of either 1 or " ++ "same physical dimension.")
      true
   else .ok true).bind fun _ =>
  if a.SplinepyDim = 1 then
    .ok (Kernel.Bezier self.para_dim self.dim)
  else
    .ok (Kernel.Bezier self.para_dim 1)

/-- `std::string::find` from position `pos`: the first position at which
`pattern` occurs in `s`, or `npos` (`none`). -/
def stringFind (pattern : List Char) : List Char → Nat → Option Nat
  | [], pos => if pattern.isEmpty then some pos else none
  | c :: cs, pos =>
    if pattern.isPrefixOf (c :: cs) then some pos else stringFind pattern cs (pos + 1)

/-- `Bezier::SplinepyCompose` (bezier.hpp:234-277). When neither `case` of
the `switch` matches, control reaches the end of the function without a
`return`: no result is produced (`none`). -/
def Bezier.SplinepyCompose (self : Bezier) (inner_function : SplinepyBase) :
    Except String (Option Kernel) :=
  (if stringFind "Bezier".toList inner_function.SplinepySplineName.toList 0 = none then
    PrintAndThrowError
      ["Bezier composition requires inner function to be a bezier type.",
       "Given inner function -", inner_function.SplinepyWhatAmI]
   else .ok ()).bind fun _ =>
  (if inner_function.SplinepyDim ≠ self.SplinepyParaDim then
    PrintAndThrowError
      ["Spline composition requires inner function to have same physical",
       "dimension as outer function's parametric dimension.", "Outer Function:",
       self.SplinepyWhatAmI, "/", "Inner Function:", inner_function.SplinepyWhatAmI]
   else .ok ()).bind fun _ =>
  if inner_function.SplinepyIsRational then
    match inner_function.SplinepyParaDim with
    | 1 => .ok (some (Kernel.RationalBezier 1 self.dim))
    | 2 => .ok (some (Kernel.RationalBezier 2 self.dim))
    | _ => .ok none
  else
    match inner_function.SplinepyParaDim with
    | 1 => .ok (some (Kernel.Bezier 1 self.dim))
    | 2 => .ok (some (Kernel.Bezier 2 self.dim))
    | _ => .ok none

/-- A kernel seen through the `SplinepyBase` interface, for use as an
operand. The answers of a `Bezier<p, d>` depend on its template arguments
only; `RationalBezier` is declared in bezier.hpp and defined outside src/,
its answers follow the pattern of the two classes under src/. -/
def Kernel.asBase (k : Kernel) : SplinepyBase :=
  match k with
  | .Bezier p d => (Bezier.mk p d ⟨[], []⟩).asBase
  | .RationalBezier p d =>
    ⟨"RationalBezier",
      "RationalBezier, parametric dimension: " ++ toString (p : Int)
        ++ ", physical dimension: " ++ toString (d : Int),
      (p : Int), (d : Int), true⟩

/-- A `Nurbs` seen through the `SplinepyBase` interface: `SplinepyParaDim`,
`SplinepyDim`, `SplinepySplineName`, `SplinepyWhatAmI`, `SplinepyIsRational`
(nurbs.hpp:151-164). -/
def Nurbs.asBase {α : Type} (self : Nurbs α) : SplinepyBase :=
  ⟨"NURBS",
    "NURBS, parametric dimension: " ++ toString (self.para_dim : Int)
      ++ ", physical dimension: " ++ toString (self.dim : Int),
    (self.para_dim : Int), (self.dim : Int), true⟩

/-- A sample receiver: the bilinear `Bezier<2, 2>` patch on the unit square. -/
def unitSquare : Bezier :=
  ⟨2, 2, ⟨[1, 1], [.point [0, 0], .point [1, 0], .point [0, 1], .point [1, 1]]⟩⟩

/-- A sample operand: the quadratic `Nurbs<1, 2>` curve with weights
`1, 2, 3`. -/
def sampleNurbs : Nurbs ℚ :=
  ⟨1, 2, ⟨⟨[[0, 0, 0, 1, 1, 1]], [2]⟩, ⟨[[0, 0, 1], [2, 2, 2], [6, 0, 3]]⟩⟩⟩

/-! ## Factories -/

/-- `Bezier::SplinepyHasKnotVectors` (bezier.hpp:105): `kHasKnotVectors`. -/
def Bezier.SplinepyHasKnotVectors (_self : Bezier) : Bool := false

/-- `Nurbs::SplinepyParaDim` (nurbs.hpp:151). -/
def Nurbs.SplinepyParaDim {α : Type} (self : Nurbs α) : Int := (self.para_dim : Int)

/-- `Nurbs::SplinepyDim` (nurbs.hpp:153). -/
def Nurbs.SplinepyDim {α : Type} (self : Nurbs α) : Int := (self.dim : Int)

/-- `Nurbs::SplinepyHasKnotVectors` (nurbs.hpp:162). -/
def Nurbs.SplinepyHasKnotVectors {α : Type} (_self : Nurbs α) : Bool := true

/-- `Nurbs::SplinepyIsRational` (nurbs.hpp:164). -/
def Nurbs.SplinepyIsRational {α : Type} (_self : Nurbs α) : Bool := true

/-- How a call of a factory ends: it returns a kernel, or the constructor it
calls does not complete, or control reaches the closing brace of the
function without a `return` statement. The factories contain no `throw`. -/
inductive Created (α : Type) where
  | returned (kernel : α)
  | notConstructed
  | noReturn
  deriving DecidableEq, Repr

/-- The statement `return std::make_shared<K>(...)` around a raw-pointer
constructor. -/
def Created.ofConstructor {α : Type} (c : Option α) : Created α :=
  match c with
  | some k => .returned k
  | none => .notConstructed

/-- The block `case 2: switch (dim) { ... }` of `SplinepyCreateBezier`
(bezier.hpp:344-350); there is no `default`. -/
def SplinepyCreateBezier.paraDimTwo (dim : Int) (degrees control_points : List ℚ) :
    Created Bezier :=
  match dim with
  | 1 => Created.ofConstructor (Bezier.fromRaw 2 1 degrees control_points)
  | 2 => Created.ofConstructor (Bezier.fromRaw 2 2 degrees control_points)
  | _ => .noReturn

/-- `SplinepyBase::SplinepyCreateBezier` (bezier.hpp:331-352). The inner
`switch` of `case 1` is not followed by `break`: when it matches nothing,
control falls through into `case 2`. -/
def SplinepyCreateBezier (para_dim dim : Int) (degrees control_points : List ℚ) :
    Created Bezier :=
  match para_dim with
  | 1 =>
    match dim with
    | 1 => Created.ofConstructor (Bezier.fromRaw 1 1 degrees control_points)
    | 2 => Created.ofConstructor (Bezier.fromRaw 1 2 degrees control_points)
    | _ => SplinepyCreateBezier.paraDimTwo dim degrees control_points
  | 2 => SplinepyCreateBezier.paraDimTwo dim degrees control_points
  | _ => .noReturn

/-- The block `case 2: switch (dim) { ... }` of `SplinepyCreateNurbs`
(nurbs.hpp:531-544); there is no `default`. -/
def SplinepyCreateNurbs.paraDimTwo (accepts : ParameterSpace ℚ → Bool) (dim : Int)
    (degrees : List ℚ) (knot_vectors : List (List ℚ)) (control_points weights : List ℚ) :
    Created (Nurbs ℚ) :=
  match dim with
  | 1 => Created.ofConstructor
      (Nurbs.fromRaw accepts 2 1 degrees knot_vectors control_points weights)
  | 2 => Created.ofConstructor
      (Nurbs.fromRaw accepts 2 2 degrees knot_vectors control_points weights)
  | _ => .noReturn

/-- `SplinepyBase::SplinepyCreateNurbs` (nurbs.hpp:509-546), with the same
fall-through from `case 1` into `case 2`. -/
def SplinepyCreateNurbs (accepts : ParameterSpace ℚ → Bool) (para_dim dim : Int)
    (degrees : List ℚ) (knot_vectors : List (List ℚ)) (control_points weights : List ℚ) :
    Created (Nurbs ℚ) :=
  match para_dim with
  | 1 =>
    match dim with
    | 1 => Created.ofConstructor
        (Nurbs.fromRaw accepts 1 1 degrees knot_vectors control_points weights)
    | 2 => Created.ofConstructor
        (Nurbs.fromRaw accepts 1 2 degrees knot_vectors control_points weights)
    | _ => SplinepyCreateNurbs.paraDimTwo accepts dim degrees knot_vectors control_points
        weights
  | 2 => SplinepyCreateNurbs.paraDimTwo accepts dim degrees knot_vectors control_points
      weights
  | _ => .noReturn

/-! ## Derivative spline -/

/-- `Bezier::SplinepyDerivativeSpline` (bezier.hpp:297-309).
`DerivativeWRTParametricDimension` is bezman's (not under src/) and is taken
as a parameter. The member function is `const` and works on the copy
`derived_bez`; it returns a new `Bezier` built from that copy. The inner loop
`for (int j{}; j < orders[i]; ++j)` runs `orders[i]` times, not at all for a
negative order. -/
def Bezier.SplinepyDerivativeSpline
    (DerivativeWRTParametricDimension : BezierSpline → Nat → BezierSpline)
    (self : Bezier) (orders : List Int) : Option Bezier :=
  (forLoop self.para_dim
      (fun i (derived_bez : BezierSpline) =>
        (readAt orders i).bind fun order =>
        forLoop order.toNat
          (fun _ d => some (DerivativeWRTParametricDimension d i))
          derived_bez)
      self.base).map fun derived_bez => ⟨self.para_dim, self.dim, derived_bez⟩

/-- The spec's description of the derivative spline: starting from the
receiver's data, differentiation with respect to axis `i` applied
`orders[i]` times, for the axes `0, 1, ...` in increasing order. -/
def repeatedAxisDifferentiation (differentiate : BezierSpline → Nat → BezierSpline)
    (start : BezierSpline) (orders : List Nat) : BezierSpline :=
  (List.range orders.length).foldl
    (fun acc i => (fun d => differentiate d i)^[orders.getD i 0] acc) start

/-- A sample differentiation: lower the degree along the axis by one and
keep the control points. It stands for bezman's operation in examples. -/
def lowerDegree (b : BezierSpline) (axis : Nat) : BezierSpline :=
  ⟨b.degrees.set axis (b.degrees.getD axis 0 - 1), b.control_points⟩

/-! ## Proximity handle -/

/-- A live `Bezier` or `Nurbs` object together with its two protected
members (bezier.hpp:326-327, nurbs.hpp:504-505): the smart pointer
`proximity_` (`none` is the null pointer) and the flag
`proximity_initialized_`. `S` is the spline data, `H` the handle type
`Proximity_`. -/
structure WithProximity (S H : Type) where
  spline : S
  proximity_ : Option H
  proximity_initialized_ : Bool
  deriving DecidableEq, Repr

/-- The implicit copy constructor of `Bezier`. The class declares none, so
`Bezier(const Bezier&)` copies member by member: the spline data, the
`std::shared_ptr` `proximity_` (the copy points to the same handle) and the
flag. bezier.hpp calls it at lines 196, 200 and 314. `Nurbs` holds a
`std::unique_ptr` and cannot be copied; the definition is used for `Bezier`. -/
def WithProximity.copy {S H : Type} (source : WithProximity S H) : WithProximity S H :=
  ⟨source.spline, source.proximity_, source.proximity_initialized_⟩

/-- `Bezier::GetProximity` (bezier.hpp:317-323) and `Nurbs::GetProximity`
(nurbs.hpp:495-501), which have the same body. `make` is the constructor
`Proximity_(*this)` of the external solver. Returns the object after the
call and the handle `*proximity_` (`none`: a null pointer is dereferenced). -/
def GetProximity {S H : Type} (make : S → H) (self : WithProximity S H) :
    WithProximity S H × Option H :=
  let self1 : WithProximity S H :=
    if !self.proximity_initialized_ then ⟨self.spline, some (make self.spline), true⟩
    else self
  (self1, self1.proximity_)

/-- What can be done to a live object: a call of `GetProximity`; a call of
any other member function, none of which names `proximity_` or
`proximity_initialized_`, though it may change the spline data; and the
implicit copy assignment `*this = source` of `Bezier`, which the class
neither declares nor deletes and which overwrites every member with the
source's, the two proximity members included. -/
inductive MemberCall (S H : Type) where
  | getProximity
  | other (update : S → S)
  | assign (source : WithProximity S H)

/-- The object after one operation. -/
def MemberCall.apply {S H : Type} (make : S → H) (self : WithProximity S H) :
    MemberCall S H → WithProximity S H
  | .getProximity => (GetProximity make self).1
  | .other update => ⟨update self.spline, self.proximity_, self.proximity_initialized_⟩
  | .assign source => source.copy

/-- `Nurbs::BasisFunctionsAndIDs(ParametricCoordinate_ const&, double*, int*)`
(nurbs.hpp:430-471), the typed overload: the accumulation and normalisation
loops of `SplinepyBasisAndSupport`, on the coordinate as given. It calls the
two-argument `EvaluateBasisFunction`, which computes the same value without
the cache. -/
def Nurbs.BasisFunctionsAndIDs {α : Type} [Zero α] [One α] [Add α] [Mul α] [Div α]
    (lib : BasisFunctions α) (self : Nurbs α) (parametric_coordinate : List α)
    (basis_function_values : List α) (support_control_point_ids : List Int) :
    Option (List α × List Int) :=
  let parameter_space := self.base.parameter_space
  (forLoop (lib.count parameter_space)
      (fun k (st : BasisLoopState α) =>
        let support_id := lib.index1d parameter_space parametric_coordinate k
        let evaluated := lib.evaluate parameter_space parametric_coordinate k
        (readAt self.base.weighted_vector_space.coordinates support_id).bind fun coordinate =>
        (readAt coordinate self.dim).bind fun w =>
        let N_times_w := evaluated * w
        (writeAt st.basis st.i N_times_w).bind fun basis1 =>
        (writeAt st.support st.i (support_id : Int)).bind fun support1 =>
        some ⟨st.i + 1, st.W + N_times_w, basis1, support1⟩)
      ⟨0, 0, basis_function_values, support_control_point_ids⟩).bind fun st =>
  let last := st.i
  let W_inv := 1 / st.W
  (forLoop last
      (fun i (b : List α) => (readAt b i).bind fun x => writeAt b i (x * W_inv))
      st.basis).bind fun basis2 =>
  some (basis2, st.support)

/-- `Nurbs::BasisFunctionsAndIDs(const double*, double*, int*)`
(nurbs.hpp:481-493), the raw-array overload. It fills the local `pc` and then
calls `BasisFunctionsAndIDs(parametric_coordinate, ...)` with the raw pointer
it was given, not with `pc`: the call resolves to this same overload. `fuel`
bounds the depth of these calls; the result is `none` when the fuel is used
up before a call returns. -/
def Nurbs.BasisFunctionsAndIDsRaw {α : Type} [Zero α]
    (self : Nurbs α) (parametric_coordinate : List α)
    (basis_function_values : List α) (support_control_point_ids : List Int) :
    Nat → Option (List α × List Int)
  | 0 => none
  | fuel + 1 =>
    (forLoop self.para_dim
        (fun i (pc : List α) =>
          (readAt parametric_coordinate i).bind fun u => writeAt pc i u)
        (List.replicate self.para_dim 0)).bind fun _pc =>
    Nurbs.BasisFunctionsAndIDsRaw self parametric_coordinate basis_function_values
      support_control_point_ids fuel

/-- A sample NURBS: the degree-one curve with control points `0, 1` and
weights `1, 3`. -/
def sampleLine : Nurbs ℚ :=
  ⟨1, 1, ⟨⟨[[0, 0, 1, 1]], [1]⟩, ⟨[[0, 1], [3, 3]]⟩⟩⟩

/-! ## Python bindings of the knot vector

A shallow embedding of `src/cpp/splinepy/py/py_knot_vector.hpp`. `DiffType`
is a signed and `SizeType` an unsigned 64-bit integer. -/

/-- The exceptions that leave the bound functions. -/
inductive PyError where
  | index_error
  | error_already_set
  | cast_error
  | runtime_error (message : String)
  | knot_vector_error
  deriving DecidableEq, Repr

/-- The value of a `DiffType` after an arithmetic result `x` is stored in
it: `x` reduced modulo `2^64` into the range `-2^63 .. 2^63 - 1`. -/
def toDiffType (x : Int) : Int := (x + 2 ^ 63) % 2 ^ 64 - 2 ^ 63

/-- The lambda `wrap_id` (py_knot_vector.hpp:23-31). In `i += n` the
operands are converted to the unsigned type and the sum is stored back into
the signed `i`; in `(SizeType) i >= n` the index is no longer negative. -/
def wrap_id (i : Int) (n : Nat) : Except PyError Int :=
  let i1 := if i < 0 then toDiffType (i + (n : Int)) else i
  if i1 < 0 ∨ n ≤ i1.toNat then .error PyError.index_error else .ok i1

/-- BSplineLib's `KnotVector`, as far as the bindings use it: the vector of
knots behind `GetKnots()`. -/
structure KnotVector where
  knots_ : List ℚ
  deriving DecidableEq, Repr

/-- `KnotVector.__getitem__` with an integer index
(py_knot_vector.hpp:44-50). The inner `Option` is the element access
`kv.GetKnots()[i]`, undefined outside the vector. -/
def KnotVector.__getitem__ (kv : KnotVector) (i : Int) : Except PyError (Option ℚ) :=
  (wrap_id i kv.knots_.length).map fun r => readAt kv.knots_ r.toNat

/-- `KnotVector.__setitem__` with an integer index
(py_knot_vector.hpp:67-71). `UpdateKnot` is BSplineLib's member function
(not under src/), taken as a parameter. -/
def KnotVector.__setitem__
    (UpdateKnot : KnotVector → Int → ℚ → Except PyError KnotVector)
    (kv : KnotVector) (i : Int) (knot : ℚ) : Except PyError KnotVector :=
  (wrap_id i kv.knots_.length).bind fun r => UpdateKnot kv r knot

/-- The four outputs of `py::slice::compute`. -/
structure SliceIndices where
  start : Nat
  stop : Nat
  step : Nat
  slicelength : Nat
  deriving DecidableEq, Repr

/-- A `py::slice`, as the bindings use it: its member function `compute`,
which for a sequence length either fails (`none`) or yields the indices, all
stored into `std::size_t` variables. pybind11 is not under src/. -/
abbrev PySlice := Nat → Option SliceIndices

/-- An element of a `py::list`: a Python float, or an object that
`py::cast<KnotType>` rejects. -/
inductive PyValue where
  | float (x : ℚ)
  | notAFloat
  deriving DecidableEq, Repr

/-- Modelled from the spec: BSplineLib's
`KnotVector::ThrowIfTooSmallOrNotNonDecreasing` (not under src/). A knot
vector is a non-decreasing sequence of scalars; the check raises when the
vector has fewer than `minimum` knots or is not non-decreasing. -/
def ThrowIfTooSmallOrNotNonDecreasing (minimum : Nat) (knots : List ℚ) :
    Except PyError Unit :=
  if knots.length < minimum ∨ ¬ knots.Sorted (fun a b => a ≤ b) then
    .error PyError.knot_vector_error
  else .ok ()

/-- The assignment loop of the slice `__setitem__`
(py_knot_vector.hpp:85-88), `remaining` iterations from index `i` on:
`knots[start] = py::cast<KnotType>(value[i]); start += step;` with `start`
a `std::size_t`. Returns the knots as they stand when the loop ends or a
cast raises, and how it ended. -/
def sliceAssignLoop (value : List PyValue) (step : Nat) :
    Nat → Nat → Nat → List ℚ → Option (List ℚ × Except PyError Unit)
  | 0, _, _, knots => some (knots, .ok ())
  | remaining + 1, i, start, knots =>
    match readAt value i with
    | none => none
    | some PyValue.notAFloat => some (knots, .error PyError.cast_error)
    | some (PyValue.float x) =>
      (writeAt knots start x).bind fun knots1 =>
      sliceAssignLoop value step remaining (i + 1) ((start + step) % 2 ^ 64) knots1

/-- `KnotVector.__setitem__` with a slice (py_knot_vector.hpp:72-90).
Returns the knot vector as it stands when the call ends, and whether the
call returned or raised. `minimum` is the least size that BSplineLib
accepts. -/
def KnotVector.__setitem__slice (minimum : Nat) (kv : KnotVector) (slice : PySlice)
    (value : List PyValue) : Option (KnotVector × Except PyError Unit) :=
  let kv_size := kv.knots_.length
  match slice kv_size with
  | none => some (kv, .error PyError.error_already_set)
  | some idx =>
    if idx.slicelength ≠ value.length then
      some (kv, .error (PyError.runtime_error
        ("Left and right hand size of slice assignment have " ++ "different sizes.")))
    else
      (sliceAssignLoop value idx.step idx.slicelength 0 idx.start kv.knots_).map fun r =>
        match r.2 with
        | .error e => (⟨r.1⟩, .error e)
        | .ok _ => (⟨r.1⟩, ThrowIfTooSmallOrNotNonDecreasing minimum r.1)

/-- A sample slice: Python's `slice(0, 2)`. -/
def sliceFirstTwo : PySlice := fun n => some ⟨0, min 2 n, 1, min 2 n⟩

/-- A sample slice: Python's `slice(None, None, -1)` on a sequence of
length `n`, as `compute` stores it into unsigned variables. -/
def sliceReversed : PySlice := fun n => some ⟨n - 1, 2 ^ 64 - 1, 2 ^ 64 - 1, n⟩


/-! ## Loop lemmas -/

theorem forLoop_succ {σ : Type} (k : Nat) (body : Nat → σ → Option σ) (s : σ) :
    forLoop (k + 1) body s = (forLoop k body s).bind (body k) := rfl

theorem readAt_getD {α : Type} (l : List α) (i : Nat) (d : α) (h : i < l.length) :
    readAt l i = some (l.getD i d) := by
  simp [readAt, List.getD_eq_getElem?_getD, List.getElem?_eq_getElem h]

theorem writeAt_spec {α : Type} (t : List α) (i : Nat) (v : α) (h : i < t.length) :
    ∃ t', writeAt t i v = some t' ∧ t'.length = t.length ∧
      ∀ p, t'[p]? = if i ≤ p ∧ p < i + 1 then some v else t[p]? := by
  refine ⟨t.set i v, by simp [writeAt, h], by simp, ?_⟩
  intro p
  by_cases hp : i = p
  · subst hp
    simp [h]
  · have : ¬ (i ≤ p ∧ p < i + 1) := by omega
    simp [this, List.getElem?_set, hp]

theorem writeAt_fill {α : Type} (H : Nat → α) (t : List α) (i : Nat) (h : i < t.length) :
    ∃ t', writeAt t i (H i) = some t' ∧ t'.length = t.length ∧
      ∀ p, t'[p]? = if i ≤ p ∧ p < i + 1 then some (H p) else t[p]? := by
  obtain ⟨t', h1, h2, h3⟩ := writeAt_spec t i (H i) h
  refine ⟨t', h1, h2, ?_⟩
  intro p
  rw [h3 p]
  by_cases hp : i ≤ p ∧ p < i + 1
  · have : p = i := by omega
    subst this
    simp
  · simp [hp]

theorem forLoop_segments {α : Type} (H : Nat → α) (b : Nat → Nat) (n : Nat)
    (body : Nat → List α → Option (List α)) (s : List α)
    (hb : ∀ i, i < n → b i ≤ b (i + 1))
    (hbody : ∀ i, i < n → ∀ t : List α, t.length = s.length →
      (∀ p, b i ≤ p → t[p]? = s[p]?) →
      ∃ t', body i t = some t' ∧ t'.length = t.length ∧
        ∀ p, t'[p]? = if b i ≤ p ∧ p < b (i + 1) then some (H p) else t[p]?) :
    ∃ s', forLoop n body s = some s' ∧ s'.length = s.length ∧
      ∀ p, s'[p]? = if b 0 ≤ p ∧ p < b n then some (H p) else s[p]? := by
  induction n with
  | zero =>
    refine ⟨s, rfl, rfl, ?_⟩
    intro p
    have : ¬ (b 0 ≤ p ∧ p < b 0) := by omega
    simp [this]
  | succ k ih =>
    obtain ⟨s1, h1, hl1, hp1⟩ := ih (fun i hi => hb i (by omega))
      (fun i hi => hbody i (by omega))
    have hmono : b 0 ≤ b k := by
      clear h1 hl1 hp1 ih hbody
      induction k with
      | zero => exact le_refl _
      | succ j ihj =>
        exact le_trans (ihj (fun i hi => hb i (by omega))) (hb j (by omega))
    obtain ⟨s2, h2, hl2, hp2⟩ := hbody k (by omega) s1 hl1 (by
      intro p hp
      have : ¬ (b 0 ≤ p ∧ p < b k) := by omega
      simp [hp1 p, this])
    refine ⟨s2, by simp [forLoop_succ, h1, h2], by omega, ?_⟩
    intro p
    have hk := hb k (by omega)
    rw [hp2 p, hp1 p]
    by_cases c1 : b k ≤ p ∧ p < b (k + 1)
    · have : b 0 ≤ p ∧ p < b (k + 1) := by omega
      simp [c1, this]
    · by_cases c2 : b 0 ≤ p ∧ p < b k
      · have : b 0 ≤ p ∧ p < b (k + 1) := by omega
        simp [c1, c2, this]
      · have : ¬ (b 0 ≤ p ∧ p < b (k + 1)) := by omega
        simp [c1, c2, this]


theorem toSizeT_natCast (n : Nat) : toSizeT (n : ℚ) = some n := by
  have h : (-1 : ℚ) < (n : ℚ) := by
    have : (0 : ℚ) ≤ (n : ℚ) := Nat.cast_nonneg n
    linarith
  simp [toSizeT, h]

theorem list_eq_of_pointwise {α : Type} (s t : List α) (n : Nat) (H : Nat → α)
    (ht : t.length = n)
    (hps : ∀ p, s[p]? = if p < n then some (H p) else none)
    (hpt : ∀ p, p < n → t[p]? = some (H p)) : s = t := by
  apply List.ext_getElem?
  intro p
  by_cases hp : p < n
  · rw [hps p, hpt p hp]; simp [hp]
  · rw [hps p]
    have : t.length ≤ p := by omega
    simp [hp, List.getElem?_eq_none this]

/-! ## Bezier round trip -/

/-- The degree loop of `Bezier::RawPtrInitHelper` on integral degrees. -/
theorem bezier_degree_loop (ds : List Nat) (m : Nat) (hm : m ≤ ds.length) :
    ∃ bm, forLoop m
      (fun i (st : List Nat × Nat) =>
        (readAt (ds.map (fun n : Nat => (n : ℚ))) i).bind fun d =>
        (toSizeT d).bind fun di =>
        (writeAt st.1 i di).bind fun bm =>
        (toSizeT ((st.2 : ℚ) * (d + 1))).bind fun n =>
        some (bm, n))
      (List.replicate ds.length 0, 1)
      = some (bm, ((ds.take m).map (fun n => n + 1)).prod) ∧
      bm.length = ds.length ∧
      ∀ p, bm[p]? = if p < m then ds[p]? else (List.replicate ds.length 0)[p]? := by
  induction m with
  | zero => exact ⟨_, rfl, by simp, by simp⟩
  | succ k ih =>
    obtain ⟨bm, h1, hl, hp⟩ := ih (by omega)
    have hk : k < ds.length := by omega
    obtain ⟨bm2, hw, hl2, hp2⟩ := writeAt_spec bm k ds[k] (by omega)
    have hprod : toSizeT
        (((((ds.take k).map (fun n => n + 1)).prod : Nat) : ℚ) * ((ds[k] : ℚ) + 1))
        = some (((ds.take (k + 1)).map (fun n => n + 1)).prod) := by
      have hnat : ((ds.take (k + 1)).map (fun n => n + 1)).prod
          = ((ds.take k).map (fun n => n + 1)).prod * (ds[k] + 1) := by
        rw [List.take_succ, List.map_append, List.prod_append, List.getElem?_eq_getElem hk]
        simp
      have : ((((ds.take k).map (fun n => n + 1)).prod : Nat) : ℚ) * ((ds[k] : ℚ) + 1)
          = ((((ds.take (k + 1)).map (fun n => n + 1)).prod : Nat) : ℚ) := by
        rw [hnat]; push_cast; ring
      rw [this, toSizeT_natCast]
    refine ⟨bm2, ?_, by omega, ?_⟩
    · rw [forLoop_succ, h1]
      have hr : readAt (ds.map (fun n : Nat => (n : ℚ))) k = some (ds[k] : ℚ) := by
        simp [readAt, List.getElem?_eq_getElem hk]
      simp only [Option.some_bind, hr, toSizeT_natCast, hw, hprod]
    · intro p
      rw [hp2 p, hp p]
      by_cases c : p = k
      · subst c
        simp [List.getElem?_eq_getElem hk]
      · have c1 : ¬ (k ≤ p ∧ p < k + 1) := by omega
        by_cases c2 : p < k
        · have : p < k + 1 := by omega
          simp [c1, c2, this]
        · have : ¬ p < k + 1 := by omega
          simp [c1, c2, this]


theorem forLoop_point (m : Nat) (g : Nat → Option ℚ) (xs : List ℚ) :
    forLoop m (fun j (pt : Coordinate) => (g j).bind fun v => pt.setEntry j v) (.point xs)
      = (forLoop m (fun j (ys : List ℚ) => (g j).bind fun v => writeAt ys j v) xs).map
          Coordinate.point := by
  induction m with
  | zero => rfl
  | succ k ih =>
    rw [forLoop_succ, forLoop_succ, ih]
    cases forLoop k (fun j (ys : List ℚ) => (g j).bind fun v => writeAt ys j v) xs with
    | none => rfl
    | some ys =>
      cases hg : g k with
      | none => simp [hg]
      | some v => simp [hg, Coordinate.setEntry]

theorem block_index_lt {i N dim j : Nat} (hi : i < N) (hj : j < dim) :
    i * dim + j < N * dim := by
  have h := Nat.mul_le_mul_right dim (show i + 1 ≤ N by omega)
  rw [Nat.succ_mul] at h
  omega

theorem getElem?_row (dim N : Nat) (cps : List ℚ) (hlen : cps.length = N * dim)
    (i j : Nat) (hi : i < N) (hj : j < dim) :
    ((cps.drop (i * dim)).take dim)[j]? = some (cps.getD (i * dim + j) 0) := by
  have h := block_index_lt hi hj
  rw [List.getElem?_take_of_lt hj, List.getElem?_drop, List.getD_eq_getElem?_getD,
    List.getElem?_eq_getElem (by omega)]
  rfl

theorem length_row (dim N : Nat) (cps : List ℚ) (hlen : cps.length = N * dim)
    (i : Nat) (hi : i < N) : ((cps.drop (i * dim)).take dim).length = dim := by
  have h := Nat.mul_le_mul_right dim (show i + 1 ≤ N by omega)
  rw [Nat.succ_mul] at h
  simp only [List.length_take, List.length_drop]
  omega


/-- Reading row `i` of a row-major buffer into a value-initialised point. -/
theorem row_loop (dim N : Nat) (cps : List ℚ) (hlen : cps.length = N * dim)
    (i : Nat) (hi : i < N) :
    forLoop dim
      (fun j (ys : List ℚ) => (readAt cps (i * dim + j)).bind fun v => writeAt ys j v)
      (List.replicate dim 0) = some ((cps.drop (i * dim)).take dim) := by
  obtain ⟨xs, hx1, hx2, hx3⟩ := forLoop_segments
    (fun j => cps.getD (i * dim + j) 0) (fun j => j) dim
    (fun j (ys : List ℚ) => (readAt cps (i * dim + j)).bind fun v => writeAt ys j v)
    (List.replicate dim 0) (fun j _ => Nat.le_succ j) (by
      intro j hj ys hys _
      have hb := block_index_lt hi hj
      have hrd : readAt cps (i * dim + j) = some (cps.getD (i * dim + j) 0) := by
        simp [readAt, List.getD_eq_getElem?_getD,
          List.getElem?_eq_getElem (show i * dim + j < cps.length by omega)]
      dsimp only
      rw [hrd]
      exact writeAt_fill (fun j => cps.getD (i * dim + j) 0) ys j (by simpa [hys] using hj))
  rw [hx1]
  congr 1
  apply list_eq_of_pointwise xs _ dim (fun j => cps.getD (i * dim + j) 0)
    (length_row dim N cps hlen i hi)
  · intro p
    rw [hx3 p]
    by_cases hp : p < dim
    · simp [hp]
    · simp [hp]
      omega
  · intro p hp
    exact getElem?_row dim N cps hlen i p hi hp

/-- The control-point loop of `Bezier::RawPtrInitHelper`. -/
theorem bezier_cp_loop (dim N : Nat) (cps : List ℚ) (hdim : 0 < dim)
    (hlen : cps.length = N * dim) :
    ∃ st, forLoop N
      (fun i (acc : List Coordinate) =>
        if 1 < dim then
          (readAt acc i).bind fun pt0 =>
          (forLoop dim
              (fun j pt =>
                (readAt cps (i * dim + j)).bind fun v =>
                pt.setEntry j v)
              pt0).bind fun pt =>
          writeAt acc i pt
        else
          (readAt cps i).bind fun v =>
          writeAt acc i (Coordinate.scalar v))
      (List.replicate N (Coordinate.zero dim)) = some st ∧ st.length = N ∧
      ∀ p, st[p]? = if p < N then some (storedCoord dim cps p) else none := by
  obtain ⟨st, h1, h2, h3⟩ := forLoop_segments (storedCoord dim cps) (fun i => i) N
    (fun i (acc : List Coordinate) =>
        if 1 < dim then
          (readAt acc i).bind fun pt0 =>
          (forLoop dim
              (fun j pt =>
                (readAt cps (i * dim + j)).bind fun v =>
                pt.setEntry j v)
              pt0).bind fun pt =>
          writeAt acc i pt
        else
          (readAt cps i).bind fun v =>
          writeAt acc i (Coordinate.scalar v))
    (List.replicate N (Coordinate.zero dim)) (fun i _ => Nat.le_succ i) (by
      intro i hi t ht hagree
      have hti : i < t.length := by simpa [ht] using hi
      by_cases hd : 1 < dim
      · -- the `dim > 1` branch
        have hr : readAt t i = some (Coordinate.point (List.replicate dim 0)) := by
          have := hagree i (le_refl i)
          simp [readAt, this, hi, Coordinate.zero, hd]
        have hx1 := row_loop dim N cps hlen i hi
        obtain ⟨t', hw1, hw2, hw3⟩ := writeAt_fill (storedCoord dim cps) t i hti
        refine ⟨t', ?_, hw2, hw3⟩
        dsimp only
        rw [if_pos hd, hr, Option.some_bind, forLoop_point, hx1]
        simpa [storedCoord, hd] using hw1
      · -- the scalar branch
        have hd1 : dim = 1 := by omega
        have hrd : readAt cps i = some (cps.getD i 0) := by
          exact readAt_getD cps i 0 (by rw [hlen, hd1]; omega)
        obtain ⟨t', hw1, hw2, hw3⟩ := writeAt_fill (storedCoord dim cps) t i hti
        refine ⟨t', ?_, hw2, hw3⟩
        dsimp only
        rw [if_neg hd, hrd, Option.some_bind]
        simpa [storedCoord, hd] using hw1)
  refine ⟨st, h1, by simpa using h2, ?_⟩
  intro p
  rw [h3 p]
  by_cases hp : p < N
  · simp [hp]
  · simp [hp]
    omega


/-- The degree loop of `Bezier::SplinepyCurrentProperties`. -/
theorem bezier_extract_degree_loop (ds : List Nat) (out : List ℚ)
    (hout : out.length = ds.length) :
    forLoop ds.length
      (fun i (o : List ℚ) => (readAt ds i).bind fun d => writeAt o i (d : ℚ)) out
      = some (ds.map (fun n : Nat => (n : ℚ))) := by
  obtain ⟨st, h1, h2, h3⟩ := forLoop_segments (fun p => ((ds.getD p 0 : Nat) : ℚ))
    (fun i => i) ds.length
    (fun i (o : List ℚ) => (readAt ds i).bind fun d => writeAt o i (d : ℚ)) out
    (fun i _ => Nat.le_succ i) (by
      intro i hi t ht _
      have hrd : readAt ds i = some (ds.getD i 0) := by
        simp [readAt, List.getD_eq_getElem?_getD, List.getElem?_eq_getElem hi]
      dsimp only
      rw [hrd, Option.some_bind]
      exact writeAt_fill (fun p => ((ds.getD p 0 : Nat) : ℚ)) t i (by omega))
  rw [h1]
  congr 1
  apply list_eq_of_pointwise st _ ds.length (fun p => ((ds.getD p 0 : Nat) : ℚ)) (by simp)
  · intro p
    rw [h3 p]
    by_cases hp : p < ds.length
    · simp [hp]
    · simp [hp]
      omega
  · intro p hp
    simp [List.getD_eq_getElem?_getD, List.getElem?_eq_getElem hp]

/-- The control-point loop of `Bezier::SplinepyCurrentProperties`. -/
theorem bezier_extract_cp_loop (dim N : Nat) (cps : List ℚ) (hdim : 0 < dim)
    (hlen : cps.length = N * dim) (stored : List Coordinate)
    (hst : ∀ p, p < N → stored[p]? = some (storedCoord dim cps p))
    (out : List ℚ) (hout : out.length = cps.length) :
    forLoop N
      (fun i (o : List ℚ) =>
        if 1 < dim then
          forLoop dim
            (fun j o1 =>
              (readAt stored i).bind fun c =>
              (c.entry j).bind fun v =>
              writeAt o1 (i * dim + j) v)
            o
        else
          (readAt stored i).bind fun c =>
          c.value.bind fun v =>
          writeAt o i v)
      out = some cps := by
  obtain ⟨st, h1, h2, h3⟩ := forLoop_segments (fun p => cps.getD p 0)
    (fun i => i * dim) N
    (fun i (o : List ℚ) =>
        if 1 < dim then
          forLoop dim
            (fun j o1 =>
              (readAt stored i).bind fun c =>
              (c.entry j).bind fun v =>
              writeAt o1 (i * dim + j) v)
            o
        else
          (readAt stored i).bind fun c =>
          c.value.bind fun v =>
          writeAt o i v)
    out (fun i _ => Nat.mul_le_mul_right dim (Nat.le_succ i)) (by
      intro i hi t ht _
      have hrs : readAt stored i = some (storedCoord dim cps i) := hst i hi
      dsimp only
      by_cases hd : 1 < dim
      · rw [if_pos hd]
        obtain ⟨t', hx1, hx2, hx3⟩ := forLoop_segments (fun p => cps.getD p 0)
          (fun j => i * dim + j) dim
          (fun j (o1 : List ℚ) =>
              (readAt stored i).bind fun c =>
              (c.entry j).bind fun v =>
              writeAt o1 (i * dim + j) v)
          t (fun j _ => by dsimp only; omega) (by
            intro j hj u hu _
            have hb := block_index_lt hi hj
            have he : (storedCoord dim cps i).entry j = some (cps.getD (i * dim + j) 0) := by
              simp only [storedCoord, if_pos hd, Coordinate.entry, readAt]
              exact getElem?_row dim N cps hlen i j hi hj
            dsimp only
            rw [hrs, Option.some_bind, he, Option.some_bind]
            exact writeAt_fill (fun p => cps.getD p 0) u (i * dim + j) (by omega))
        refine ⟨t', hx1, hx2, ?_⟩
        intro p
        rw [hx3 p, Nat.succ_mul, Nat.add_zero]
      · have hd1 : dim = 1 := by omega
        subst hd1
        rw [if_neg hd, hrs, Option.some_bind]
        have hv : (storedCoord 1 cps i).value = some (cps.getD i 0) := by
          simp [storedCoord, Coordinate.value]
        rw [hv, Option.some_bind]
        obtain ⟨t', hw1, hw2, hw3⟩ := writeAt_fill (fun p => cps.getD p 0) t i (by omega)
        refine ⟨t', hw1, hw2, ?_⟩
        intro p
        rw [hw3 p]
        simp)
  rw [h1]
  congr 1
  apply list_eq_of_pointwise st cps (N * dim) (fun p => cps.getD p 0) hlen
  · intro p
    rw [h3 p]
    by_cases hp : p < N * dim
    · simp [hp]
    · simp [hp]
      omega
  · intro p hp
    simp [List.getD_eq_getElem?_getD, List.getElem?_eq_getElem (show p < cps.length by omega)]


/-- What `Bezier::RawPtrInitHelper` stores for integral degrees `ds` and a
control-point buffer of the matching length. -/
theorem bezier_init_spec (dim : Nat) (ds : List Nat) (cps : List ℚ)
    (hdim : 0 < dim) (hcps : cps.length = (ds.map (fun n => n + 1)).prod * dim) :
    ∃ st, Bezier.RawPtrInitHelper ds.length dim (ds.map (fun n : Nat => (n : ℚ))) cps
        = some ⟨ds, st⟩ ∧
      st.length = (ds.map (fun n => n + 1)).prod ∧
      ∀ p, p < (ds.map (fun n => n + 1)).prod → st[p]? = some (storedCoord dim cps p) := by
  obtain ⟨bm, hb1, hb2, hb3⟩ := bezier_degree_loop ds ds.length (le_refl _)
  have hbm : bm = ds := by
    apply List.ext_getElem?
    intro p
    rw [hb3 p]
    by_cases hp : p < ds.length
    · simp [hp]
    · have hge : ds.length ≤ p := by omega
      simp [hp, List.getElem?_eq_none hge]
      exact hge
  subst hbm
  rw [List.take_length] at hb1
  obtain ⟨st, hs1, hs2, hs3⟩ := bezier_cp_loop dim _ cps hdim hcps
  refine ⟨st, ?_, hs2, ?_⟩
  · unfold Bezier.RawPtrInitHelper
    rw [hb1]
    simp only [Option.some_bind]
    rw [hs1]
    rfl
  · intro p hp
    rw [hs3 p, if_pos hp]

/-- C1 (Bezier round trip). For integral non-negative degrees `ds` (one per
parametric axis), a positive physical dimension and a control-point buffer of
length `prod (ds_i + 1) * dim`, constructing a Bezier from the raw buffers and
then calling `SplinepyCurrentProperties` on output buffers of the same
lengths succeeds and leaves the output buffers equal to the input degrees and
to the input control points, entry for entry. -/
theorem bezier_round_trip (para_dim dim : Nat) (ds : List Nat) (cps out_d out_c : List ℚ)
    (hdim : 0 < dim) (hds : ds.length = para_dim)
    (hcps : cps.length = (ds.map (fun n => n + 1)).prod * dim)
    (hod : out_d.length = para_dim) (hoc : out_c.length = cps.length) :
    (Bezier.fromRaw para_dim dim (ds.map (fun n : Nat => (n : ℚ))) cps).bind
        (fun b => b.SplinepyCurrentProperties out_d out_c)
      = some (ds.map (fun n : Nat => (n : ℚ)), cps) := by
  subst hds
  obtain ⟨st, h1, h2, h3⟩ := bezier_init_spec dim ds cps hdim hcps
  have hd := bezier_extract_degree_loop ds out_d hod
  have hc := bezier_extract_cp_loop dim _ cps hdim hcps st h3 out_c hoc
  rw [← h2] at hc
  simp only [Bezier.fromRaw, h1, Option.map_some', Option.some_bind,
    Bezier.SplinepyCurrentProperties, hd, hc]

/-- Witness for C1: a linear-by-quadratic surface patch in the plane. -/
theorem bezier_round_trip_witness :
    (Bezier.fromRaw 2 2 ([1, 2].map (fun n : Nat => (n : ℚ)))
        [0, 0, 1, 0, 0, 1, 1, 1, 0, 2, 1, 2]).bind
        (fun b => b.SplinepyCurrentProperties [7, 7] (List.replicate 12 9))
      = some ([1, 2].map (fun n : Nat => (n : ℚ)), [0, 0, 1, 0, 0, 1, 1, 1, 0, 2, 1, 2]) :=
  bezier_round_trip 2 2 [1, 2] [0, 0, 1, 0, 0, 1, 1, 1, 0, 2, 1, 2] [7, 7]
    (List.replicate 12 9) (by decide) (by decide) (by decide) (by decide) (by decide)

/-! ## NURBS round trip -/

theorem toInt_natCast (n : Nat) : toInt (n : ℚ) = (n : Int) := by
  have h : (0 : ℚ) ≤ (n : ℚ) := Nat.cast_nonneg n
  simp [toInt, h]

theorem map_range_getD {α : Type} (l : List α) (d : α) :
    (List.range l.length).map (fun i => l.getD i d) = l := by
  apply List.ext_getElem?
  intro p
  by_cases hp : p < l.length
  · simp [hp, List.getD_eq_getElem?_getD, List.getElem?_eq_getElem hp]
  · have hge : l.length ≤ p := by omega
    simp [hp, List.getElem?_eq_none hge]
    exact hge

/-- A loop that appends one element per iteration. -/
theorem push_loop {α : Type} (h : Nat → α) (m : Nat)
    (body : Nat → List α → Option (List α)) (init : List α)
    (hbody : ∀ i, i < m → ∀ acc, body i acc = some (acc ++ [h i])) :
    forLoop m body init = some (init ++ (List.range m).map h) := by
  induction m with
  | zero => simp [forLoop]
  | succ k ih =>
    rw [forLoop_succ, ih (fun i hi => hbody i (by omega)), Option.some_bind,
      hbody k (by omega), List.range_succ, List.map_append, List.append_assoc]
    rfl

/-- Copying a vector element by element with `emplace_back`. -/
theorem copy_push_loop {α : Type} [Inhabited α] (l : List α) :
    forLoop l.length (fun j (acc : List α) => (readAt l j).map fun k => acc ++ [k]) []
      = some l := by
  rw [push_loop (fun i => l.getD i default) l.length _ [] (by
    intro i hi acc
    simp [readAt, List.getD_eq_getElem?_getD, List.getElem?_eq_getElem hi])]
  rw [map_range_getD, List.nil_append]

/-- Writing a converted copy of `src` over a buffer of the same length. -/
theorem copy_loop {α β : Type} [Inhabited α] (f : α → β) (src : List α) (out : List β)
    (hout : out.length = src.length) :
    forLoop src.length
      (fun i (o : List β) => (readAt src i).bind fun d => writeAt o i (f d)) out
      = some (src.map f) := by
  obtain ⟨st, h1, h2, h3⟩ := forLoop_segments (fun p => f (src.getD p default))
    (fun i => i) src.length
    (fun i (o : List β) => (readAt src i).bind fun d => writeAt o i (f d)) out
    (fun i _ => Nat.le_succ i) (by
      intro i hi t ht _
      have hrd : readAt src i = some (src.getD i default) := by
        simp [readAt, List.getD_eq_getElem?_getD, List.getElem?_eq_getElem hi]
      dsimp only
      rw [hrd, Option.some_bind]
      exact writeAt_fill (fun p => f (src.getD p default)) t i (by omega))
  rw [h1]
  congr 1
  apply list_eq_of_pointwise st _ src.length (fun p => f (src.getD p default)) (by simp)
  · intro p
    rw [h3 p]
    by_cases hp : p < src.length
    · simp [hp]
    · simp [hp]
      omega
  · intro p hp
    simp [List.getD_eq_getElem?_getD, List.getElem?_eq_getElem hp]

/-- A loop over a pair whose two components evolve independently. -/
theorem forLoop_pair {α β : Type} (n : Nat) (body : Nat → α × β → Option (α × β))
    (F : Nat → α → Option α) (G : Nat → β → Option β)
    (hbody : ∀ i, i < n → ∀ a b, body i (a, b)
      = (F i a).bind fun a' => (G i b).bind fun b' => some (a', b'))
    (a : α) (b : β) :
    forLoop n body (a, b)
      = (forLoop n F a).bind fun a' => (forLoop n G b).bind fun b' => some (a', b') := by
  induction n with
  | zero => rfl
  | succ k ih =>
    rw [forLoop_succ, forLoop_succ, forLoop_succ, ih (fun i hi => hbody i (by omega))]
    cases hF : forLoop k F a with
    | none => rfl
    | some a1 =>
      cases hG : forLoop k G b with
      | none =>
        cases hF1 : F k a1 <;> simp [hF1]
      | some b1 =>
        simp only [Option.some_bind]
        rw [hbody k (by omega)]
theorem prod_take_succ (ns : List Nat) (k : Nat) (hk : k < ns.length) :
    (ns.take (k + 1)).prod = (ns.take k).prod * ns.getD k 0 := by
  rw [List.take_succ, List.prod_append, List.getElem?_eq_getElem hk,
    List.getD_eq_getElem?_getD, List.getElem?_eq_getElem hk]
  simp

/-! ### Rows of a row-major buffer, over any scalar type -/

theorem row_getElem? {α : Type} [Zero α] (dim N : Nat) (cps : List α)
    (hlen : cps.length = N * dim) (i j : Nat) (hi : i < N) (hj : j < dim) :
    ((cps.drop (i * dim)).take dim)[j]? = some (cps.getD (i * dim + j) 0) := by
  have h := block_index_lt hi hj
  rw [List.getElem?_take_of_lt hj, List.getElem?_drop, List.getD_eq_getElem?_getD,
    List.getElem?_eq_getElem (by omega)]
  rfl

theorem row_length {α : Type} (dim N : Nat) (cps : List α) (hlen : cps.length = N * dim)
    (i : Nat) (hi : i < N) : ((cps.drop (i * dim)).take dim).length = dim := by
  have h := Nat.mul_le_mul_right dim (show i + 1 ≤ N by omega)
  rw [Nat.succ_mul] at h
  simp only [List.length_take, List.length_drop]
  omega

/-- Reading row `i` of a row-major buffer into a value-initialised
coordinate, over any scalar type. -/
theorem row_fill_loop {α : Type} [Zero α] (dim N : Nat) (cps : List α)
    (hlen : cps.length = N * dim) (i : Nat) (hi : i < N) :
    forLoop dim
      (fun j (ys : List α) => (readAt cps (i * dim + j)).bind fun v => writeAt ys j v)
      (List.replicate dim 0) = some ((cps.drop (i * dim)).take dim) := by
  obtain ⟨xs, hx1, hx2, hx3⟩ := forLoop_segments
    (fun j => cps.getD (i * dim + j) 0) (fun j => j) dim
    (fun j (ys : List α) => (readAt cps (i * dim + j)).bind fun v => writeAt ys j v)
    (List.replicate dim 0) (fun j _ => Nat.le_succ j) (by
      intro j hj ys hys _
      have hb := block_index_lt hi hj
      have hrd : readAt cps (i * dim + j) = some (cps.getD (i * dim + j) 0) :=
        readAt_getD cps (i * dim + j) 0 (by omega)
      dsimp only
      rw [hrd]
      exact writeAt_fill (fun j => cps.getD (i * dim + j) 0) ys j (by simpa [hys] using hj))
  rw [hx1]
  congr 1
  apply list_eq_of_pointwise xs _ dim (fun j => cps.getD (i * dim + j) 0)
    (row_length dim N cps hlen i hi)
  · intro p
    rw [hx3 p]
    by_cases hp : p < dim
    · simp [hp]
    · simp [hp]
      omega
  · intro p hp
    exact row_getElem? dim N cps hlen i p hi hp

/-- The axis loop of `Nurbs::RawPtrInitHelper` on integral degrees `ds` and
knot vectors of length `ns_i + ds_i + 1`. -/
theorem nurbs_axes_loop {α : Type} [Zero α] (ds ns : List Nat) (kvs : List (List α))
    (hns : ns.length = ds.length) (hkvs : kvs.length = ds.length)
    (hkn : ∀ i, i < ds.length → (kvs.getD i []).length = ns.getD i 0 + ds.getD i 0 + 1)
    (m : Nat) (hm : m ≤ ds.length) :
    ∃ D K, forLoop m
      (fun i (st : NurbsInitAxes α) =>
        (readAt (ds.map (fun n : Nat => (n : ℚ))) i).bind fun d =>
        (writeAt st.sl_degrees i (toInt d)).bind fun sl_degrees =>
        (readAt kvs i).bind fun knot_vector =>
        let nkv := knot_vector.length
        (forLoop nkv
            (fun j (sl_knots : List α) =>
              (readAt knot_vector j).map fun k => sl_knots ++ [k])
            []).bind fun sl_knots =>
        (writeAt st.sl_knot_vectors i sl_knots).bind fun sl_knot_vectors =>
        (toSizeT ((st.ncps : ℚ) * ((nkv : ℚ) - d - 1))).bind fun ncps =>
        some ⟨sl_degrees, sl_knot_vectors, ncps⟩)
      ⟨List.replicate ds.length 0, List.replicate ds.length [], 1⟩
      = some ⟨D, K, (ns.take m).prod⟩ ∧
      D.length = ds.length ∧ K.length = ds.length ∧
      (∀ p, D[p]? = if p < m then some ((ds.getD p 0 : Nat) : Int)
        else (List.replicate ds.length (0 : Int))[p]?) ∧
      (∀ p, K[p]? = if p < m then some (kvs.getD p [])
        else (List.replicate ds.length ([] : List α))[p]?) := by
  haveI : Inhabited α := ⟨0⟩
  induction m with
  | zero => exact ⟨_, _, rfl, by simp, by simp, by simp, by simp⟩
  | succ k ih =>
    obtain ⟨D, K, h1, hD, hK, hDp, hKp⟩ := ih (by omega)
    have hk : k < ds.length := by omega
    obtain ⟨D2, hw, hD2, hDp2⟩ :=
      writeAt_fill (fun p => ((ds.getD p 0 : Nat) : Int)) D k (by omega)
    obtain ⟨K2, hwK, hK2, hKp2⟩ := writeAt_fill (fun p => kvs.getD p []) K k (by omega)
    have hr : readAt (ds.map (fun n : Nat => (n : ℚ))) k = some ((ds.getD k 0 : Nat) : ℚ) := by
      simp [readAt, List.getD_eq_getElem?_getD, List.getElem?_eq_getElem hk]
    have hrk : readAt kvs k = some (kvs.getD k []) := readAt_getD kvs k [] (by omega)
    have hprod : toSizeT ((((ns.take k).prod : Nat) : ℚ)
        * ((((kvs.getD k []).length : Nat) : ℚ) - ((ds.getD k 0 : Nat) : ℚ) - 1))
        = some ((ns.take (k + 1)).prod) := by
      rw [hkn k hk, prod_take_succ ns k (by omega)]
      have : (((ns.take k).prod : Nat) : ℚ)
          * (((ns.getD k 0 + ds.getD k 0 + 1 : Nat) : ℚ) - ((ds.getD k 0 : Nat) : ℚ) - 1)
          = (((ns.take k).prod * ns.getD k 0 : Nat) : ℚ) := by
        push_cast; ring
      rw [this, toSizeT_natCast]
    refine ⟨D2, K2, ?_, by omega, by omega, ?_, ?_⟩
    · rw [forLoop_succ, h1]
      simp only [Option.some_bind, hr, toInt_natCast, hw, hrk, copy_push_loop, hwK, hprod]
    · intro p
      rw [hDp2 p, hDp p]
      by_cases c : k ≤ p ∧ p < k + 1
      · have : p < k + 1 := by omega
        simp [c, this]
      · by_cases c2 : p < k
        · have : p < k + 1 := by omega
          simp [c, c2, this]
        · have : ¬ p < k + 1 := by omega
          simp [c, c2, this]
    · intro p
      rw [hKp2 p, hKp p]
      by_cases c : k ≤ p ∧ p < k + 1
      · have : p < k + 1 := by omega
        simp [c, this]
      · by_cases c2 : p < k
        · have : p < k + 1 := by omega
          simp [c, c2, this]
        · have : ¬ p < k + 1 := by omega
          simp [c, c2, this]
/-- The control-point loop of `Nurbs::RawPtrInitHelper`. -/
theorem nurbs_cp_loop {α : Type} [Zero α] (dim N : Nat) (cps ws : List α) (hlen : cps.length = N * dim)
    (hws : ws.length = N) :
    forLoop N
      (fun i (acc : List (List α) × List α) =>
        (forLoop dim
            (fun j (control_point : List α) =>
              (readAt cps (i * dim + j)).bind fun v =>
              writeAt control_point j v)
            (List.replicate dim 0)).bind fun control_point =>
        (readAt ws i).bind fun w =>
        some (acc.1 ++ [control_point], acc.2 ++ [w]))
      ([], [])
      = some ((List.range N).map (fun i => (cps.drop (i * dim)).take dim), ws) := by
  rw [forLoop_pair N _
    (fun i (a : List (List α)) => some (a ++ [(cps.drop (i * dim)).take dim]))
    (fun i (b : List α) => some (b ++ [ws.getD i 0])) (by
      intro i hi a b
      dsimp only
      rw [row_fill_loop dim N cps hlen i hi, readAt_getD ws i 0 (by omega)]
      rfl)]
  rw [push_loop (fun i => (cps.drop (i * dim)).take dim) N _ [] (fun i _ acc => rfl),
    push_loop (fun i => ws.getD i 0) N _ [] (fun i _ acc => rfl)]
  subst hws
  simp only [Option.some_bind, List.nil_append, map_range_getD]

/-- Projecting a stored coordinate: each entry of the row comes back
multiplied by the weight and divided by it. -/
theorem project_stored {α : Type} [Mul α] [Div α] (dim : Nat) (row : List α) (w : α)
    (hrow : row.length = dim) :
    WeightedVectorSpace.Project dim (row.map (fun x => x * w) ++ [w])
      = some (row.map (fun x => x * w / w)) := by
  have hr : readAt (row.map (fun x => x * w) ++ [w]) dim = some w := by
    simp [readAt, ← hrow]
  have ht : (row.map (fun x => x * w) ++ [w]).take dim = row.map (fun x => x * w) := by
    rw [List.take_append_of_le_length (by simp [hrow])]
    rw [List.take_of_length_le (by simp [hrow])]
  unfold WeightedVectorSpace.Project
  rw [hr, ht, Option.map_some', List.map_map]
  rfl

/-- Writing rows into a flat buffer: when entry `j` of row `i` is entry
`i * dim + j` of `target`, the nested loop turns the buffer into `target`. -/
theorem flat_write_rows {α : Type} [Zero α] (dim N : Nat) (rows : Nat → List α)
    (target out : List α) (hlen : target.length = N * dim)
    (hrows : ∀ i j, i < N → j < dim →
      readAt (rows i) j = some (target.getD (i * dim + j) 0))
    (hout : out.length = target.length) :
    forLoop N
      (fun i (o : List α) =>
        forLoop dim
          (fun j o1 =>
            (readAt (rows i) j).bind fun v =>
            writeAt o1 (i * dim + j) v)
          o)
      out = some target := by
  obtain ⟨st, h1, h2, h3⟩ := forLoop_segments (fun p => target.getD p 0)
    (fun i => i * dim) N
    (fun i (o : List α) =>
        forLoop dim
          (fun j o1 =>
            (readAt (rows i) j).bind fun v =>
            writeAt o1 (i * dim + j) v)
          o)
    out (fun i _ => Nat.mul_le_mul_right dim (Nat.le_succ i)) (by
      intro i hi t ht _
      dsimp only
      obtain ⟨t', hx1, hx2, hx3⟩ := forLoop_segments (fun p => target.getD p 0)
        (fun j => i * dim + j) dim
        (fun j (o1 : List α) =>
            (readAt (rows i) j).bind fun v =>
            writeAt o1 (i * dim + j) v)
        t (fun j _ => by dsimp only; omega) (by
          intro j hj u hu _
          have hb := block_index_lt hi hj
          dsimp only
          rw [hrows i j hi hj, Option.some_bind]
          exact writeAt_fill (fun p => target.getD p 0) u (i * dim + j) (by omega))
      refine ⟨t', hx1, hx2, ?_⟩
      intro p
      rw [hx3 p, Nat.succ_mul, Nat.add_zero])
  rw [h1]
  congr 1
  apply list_eq_of_pointwise st target (N * dim) (fun p => target.getD p 0) hlen
  · intro p
    rw [h3 p]
    by_cases hp : p < N * dim
    · simp [hp]
    · simp [hp]
      omega
  · intro p hp
    exact (readAt_getD target p 0 (by omega))

theorem reweighted_length {α : Type} [Zero α] [Mul α] [Div α] (dim : Nat) (cps ws : List α) :
    (reweighted dim cps ws).length = cps.length := by
  simp [reweighted]

theorem reweighted_getD {α : Type} [Zero α] [Mul α] [Div α] (dim N : Nat) (cps ws : List α)
    (hlen : cps.length = N * dim) (i j : Nat) (hi : i < N) (hj : j < dim) :
    (reweighted dim cps ws).getD (i * dim + j) 0
      = cps.getD (i * dim + j) 0 * ws.getD i 0 / ws.getD i 0 := by
  have hb := block_index_lt hi hj
  have hdiv : (i * dim + j) / dim = i := by
    rw [Nat.mul_comm, Nat.mul_add_div (by omega), Nat.div_eq_of_lt hj, Nat.add_zero]
  have hlt : i * dim + j < (List.range cps.length).length := by
    rw [List.length_range]; omega
  rw [reweighted, List.getD_eq_getElem?_getD, List.getElem?_map,
    List.getElem?_eq_getElem hlt]
  simp only [List.getElem_range, Option.map_some', Option.getD_some, hdiv]

theorem readAt_homogeneous {α : Type} [Zero α] [Mul α] (dim N : Nat) (cps ws : List α) (hws : ws.length = N)
    (i : Nat) (hi : i < N) :
    readAt (WeightedVectorSpace.ofCoordinatesAndWeights
        ((List.range N).map (fun i => (cps.drop (i * dim)).take dim)) ws).coordinates i
      = some (((cps.drop (i * dim)).take dim).map (fun x => x * ws.getD i 0)
          ++ [ws.getD i 0]) := by
  have hi2 : i < ws.length := by omega
  simp [readAt, WeightedVectorSpace.ofCoordinatesAndWeights, List.getElem?_zipWith,
    List.getElem?_eq_getElem hi2, List.getD_eq_getElem?_getD, hi]


/-- The control-point and weight loop of `Nurbs::SplinepyCurrentProperties`
on the vector space that the constructor builds: the weights come back as
they were given, the control points multiplied by their weight and divided
by it. -/
theorem nurbs_extract_cp_loop {α : Type} [Zero α] [Mul α] [Div α] (dim N : Nat)
    (cps ws out_c out_w : List α)
    (hlen : cps.length = N * dim) (hws : ws.length = N)
    (hoc : out_c.length = cps.length) (how : out_w.length = ws.length) :
    forLoop N
      (fun i (out : List α × List α) =>
        (readAt (WeightedVectorSpace.ofCoordinatesAndWeights
            ((List.range N).map (fun i => (cps.drop (i * dim)).take dim))
            ws).coordinates i).bind fun coord_named_phil =>
        (WeightedVectorSpace.Project dim coord_named_phil).bind fun projected_phil =>
        (forLoop dim
            (fun j c =>
              (readAt projected_phil j).bind fun v =>
              writeAt c (i * dim + j) v)
            out.1).bind fun c =>
        (readAt coord_named_phil dim).bind fun w =>
        (writeAt out.2 i w).bind fun wsOut =>
        some (c, wsOut))
      (out_c, out_w) = some (reweighted dim cps ws, ws) := by
  haveI : Inhabited α := ⟨0⟩
  rw [forLoop_pair N _
    (fun i (o : List α) =>
        forLoop dim
          (fun j o1 =>
            (readAt (((cps.drop (i * dim)).take dim).map
              (fun x => x * ws.getD i 0 / ws.getD i 0)) j).bind fun v =>
            writeAt o1 (i * dim + j) v)
          o)
    (fun i (o : List α) => (readAt ws i).bind fun d => writeAt o i (id d)) (by
      intro i hi a b
      have hi2 : i < ws.length := by omega
      have hrow := row_length dim N cps hlen i hi
      have hlast : readAt (((cps.drop (i * dim)).take dim).map (fun x => x * ws.getD i 0)
          ++ [ws.getD i 0]) dim = some (ws.getD i 0) := by
        have hl : (((cps.drop (i * dim)).take dim).map (fun x => x * ws.getD i 0)).length
            = dim := by
          rw [List.length_map, hrow]
        rw [readAt, List.getElem?_append_right (by omega), hl]
        simp
      dsimp only
      rw [readAt_homogeneous dim N cps ws hws i hi, Option.some_bind,
        project_stored dim _ (ws.getD i 0) hrow, Option.some_bind, hlast,
        readAt_getD ws i 0 hi2]
      rfl)]
  rw [flat_write_rows dim N _ (reweighted dim cps ws) out_c
    (by rw [reweighted_length, hlen])
    (by
      intro i j hi hj
      rw [reweighted_getD dim N cps ws hlen i j hi hj, readAt, List.getElem?_map,
        row_getElem? dim N cps hlen i j hi hj]
      rfl)
    (by rw [reweighted_length, hoc])]
  subst hws
  rw [copy_loop id ws out_w how]
  simp

/-- The knot-vector loop of `Nurbs::SplinepyCurrentProperties`. -/
theorem nurbs_extract_kv_loop {α : Type} [Zero α] (kvs : List (List α)) :
    forLoop kvs.length
      (fun i (acc : List (List α)) =>
        (readAt kvs i).bind fun core_kv =>
        let kvsize := core_kv.length
        (forLoop kvsize
            (fun j (kv : List α) => (readAt core_kv j).map fun k => kv ++ [k])
            []).bind fun kv =>
        some (acc ++ [kv]))
      [] = some kvs := by
  haveI : Inhabited α := ⟨0⟩
  rw [push_loop (fun i => kvs.getD i []) kvs.length _ [] (by
    intro i hi acc
    dsimp only
    rw [readAt_getD kvs i [] hi, Option.some_bind, copy_push_loop, Option.some_bind])]
  rw [map_range_getD, List.nil_append]
/-- What `Nurbs::RawPtrInitHelper` stores for integral degrees `ds`, knot
vectors of length `ns_i + ds_i + 1` and buffers of the matching lengths. -/
theorem nurbs_init_spec {α : Type} [Zero α] [Mul α] (accepts : ParameterSpace α → Bool)
    (dim : Nat) (ds ns : List Nat) (kvs : List (List α)) (cps ws : List α)
    (hns : ns.length = ds.length) (hkvs : kvs.length = ds.length)
    (hkn : ∀ i, i < ds.length → (kvs.getD i []).length = ns.getD i 0 + ds.getD i 0 + 1)
    (hcps : cps.length = ns.prod * dim) (hws : ws.length = ns.prod)
    (hacc : accepts ⟨kvs, ds.map (fun n : Nat => (n : Int))⟩ = true) :
    Nurbs.RawPtrInitHelper accepts ds.length dim (ds.map (fun n : Nat => (n : ℚ))) kvs cps ws
      = some ⟨⟨kvs, ds.map (fun n : Nat => (n : Int))⟩,
          WeightedVectorSpace.ofCoordinatesAndWeights
            ((List.range ns.prod).map (fun i => (cps.drop (i * dim)).take dim)) ws⟩ := by
  obtain ⟨D, K, h1, hD, hK, hDp, hKp⟩ := nurbs_axes_loop ds ns kvs hns hkvs hkn ds.length
    (le_refl _)
  have hDeq : D = ds.map (fun n : Nat => (n : Int)) := by
    apply list_eq_of_pointwise D _ ds.length (fun p => ((ds.getD p 0 : Nat) : Int)) (by simp)
    · intro p
      rw [hDp p]
      by_cases hp : p < ds.length
      · simp [hp]
      · simp [hp]
        omega
    · intro p hp
      simp [List.getD_eq_getElem?_getD, List.getElem?_eq_getElem hp]
  have hKeq : K = kvs := by
    apply list_eq_of_pointwise K _ ds.length (fun p => kvs.getD p []) hkvs
    · intro p
      rw [hKp p]
      by_cases hp : p < ds.length
      · simp [hp]
      · simp [hp]
        omega
    · intro p hp
      simp [List.getD_eq_getElem?_getD, List.getElem?_eq_getElem (show p < kvs.length by omega)]
  subst hDeq hKeq
  have htake : (ns.take ds.length).prod = ns.prod := by
    rw [← hns, List.take_length]
  rw [htake] at h1
  unfold Nurbs.RawPtrInitHelper
  rw [h1]
  simp only [Option.some_bind, hacc, if_true]
  rw [nurbs_cp_loop dim ns.prod cps ws hcps hws]
  rfl


/-- Construction followed by `SplinepyCurrentProperties`, over any scalar
type: the degrees, the knot vectors and the weights come back as given, the
control points as `reweighted`. -/
theorem nurbs_round_trip_reweighted {α : Type} [Zero α] [Mul α] [Div α]
    (accepts : ParameterSpace α → Bool) (dim : Nat)
    (ds ns : List Nat) (kvs : List (List α)) (cps ws out_c out_w : List α)
    (out_d : List ℚ)
    (hns : ns.length = ds.length) (hkvs : kvs.length = ds.length)
    (hkn : ∀ i, i < ds.length → (kvs.getD i []).length = ns.getD i 0 + ds.getD i 0 + 1)
    (hcps : cps.length = ns.prod * dim) (hws : ws.length = ns.prod)
    (hacc : accepts ⟨kvs, ds.map (fun n : Nat => (n : Int))⟩ = true)
    (hod : out_d.length = ds.length) (hoc : out_c.length = cps.length)
    (how : out_w.length = ws.length) :
    (Nurbs.fromRaw accepts ds.length dim (ds.map (fun n : Nat => (n : ℚ))) kvs cps ws).bind
        (fun n => n.SplinepyCurrentProperties out_d out_c out_w)
      = some ⟨ds.map (fun n : Nat => (n : ℚ)), kvs, reweighted dim cps ws, ws⟩ := by
  have hinit := nurbs_init_spec accepts dim ds ns kvs cps ws hns hkvs hkn hcps hws hacc
  have hdeg := copy_loop (fun d : Int => (d : ℚ)) (ds.map (fun n : Nat => (n : Int))) out_d
    (by simpa using hod)
  rw [List.length_map] at hdeg
  have hkv := nurbs_extract_kv_loop kvs
  rw [hkvs] at hkv
  have hcp := nurbs_extract_cp_loop dim ns.prod cps ws out_c out_w hcps hws hoc how
  have hn : (WeightedVectorSpace.ofCoordinatesAndWeights
      ((List.range ns.prod).map (fun i => (cps.drop (i * dim)).take dim))
      ws).GetNumberOfCoordinates = ns.prod := by
    simp [WeightedVectorSpace.GetNumberOfCoordinates,
      WeightedVectorSpace.ofCoordinatesAndWeights, hws]
  simp only [Nurbs.fromRaw, hinit, Option.map_some', Option.some_bind,
    Nurbs.SplinepyCurrentProperties, hdeg, hkv, hn, hcp]
  simp

theorem reweighted_eq_self {α : Type} [Zero α] [Mul α] [Div α] (dim : Nat) (cps ws : List α)
    (hexact : ∀ p, p < cps.length →
      cps.getD p 0 * ws.getD (p / dim) 0 / ws.getD (p / dim) 0 = cps.getD p 0) :
    reweighted dim cps ws = cps := by
  unfold reweighted
  conv_rhs => rw [← map_range_getD cps 0]
  apply List.map_congr_left
  intro p hp
  exact hexact p (by simpa using hp)

/-- In exact rational arithmetic with non-zero weights the round trip returns
the control points as given. -/
theorem nurbs_round_trip_rational
    (accepts : ParameterSpace ℚ → Bool) (dim : Nat)
    (ds ns : List Nat) (kvs : List (List ℚ)) (cps ws out_c out_w : List ℚ)
    (out_d : List ℚ)
    (hns : ns.length = ds.length) (hkvs : kvs.length = ds.length)
    (hkn : ∀ i, i < ds.length → (kvs.getD i []).length = ns.getD i 0 + ds.getD i 0 + 1)
    (hcps : cps.length = ns.prod * dim) (hws : ws.length = ns.prod)
    (hpos : ∀ w, w ∈ ws → w ≠ 0)
    (hacc : accepts ⟨kvs, ds.map (fun n : Nat => (n : Int))⟩ = true)
    (hod : out_d.length = ds.length) (hoc : out_c.length = cps.length)
    (how : out_w.length = ws.length) :
    (Nurbs.fromRaw accepts ds.length dim (ds.map (fun n : Nat => (n : ℚ))) kvs cps ws).bind
        (fun n => n.SplinepyCurrentProperties out_d out_c out_w)
      = some ⟨ds.map (fun n : Nat => (n : ℚ)), kvs, cps, ws⟩ := by
  rw [nurbs_round_trip_reweighted accepts dim ds ns kvs cps ws out_c out_w out_d hns
    hkvs hkn hcps hws hacc hod hoc how, reweighted_eq_self dim cps ws]
  intro p hp
  have hd : 0 < dim := by
    rcases Nat.eq_zero_or_pos dim with h | h
    · subst h
      rw [Nat.mul_zero] at hcps
      omega
    · exact h
  have hq : p / dim < ws.length := by
    rw [hws]
    exact (Nat.div_lt_iff_lt_mul hd).mpr (by omega)
  have hw : ws.getD (p / dim) 0 ≠ 0 := by
    rw [List.getD_eq_getElem _ _ hq]
    exact hpos _ (List.getElem_mem _)
  exact mul_div_cancel_right₀ _ hw

/-- C2, amended (NURBS round trip). For integral non-negative degrees, knot
vectors of length `ns_i + ds_i + 1` that SplineLib accepts, a control-point
buffer of length `prod ns * dim` and one weight per control point, over any
scalar arithmetic: constructing a `Nurbs` from the raw buffers and then
calling `SplinepyCurrentProperties` succeeds and writes back the degrees,
every knot vector and the weights equal to the inputs and in the input
order; each control-point entry is written back as the input entry
multiplied by its weight and divided by it, which equals the input entry
whenever that product and quotient are exact. -/
theorem nurbs_round_trip_scalar {α : Type} [Zero α] [Mul α] [Div α]
    (accepts : ParameterSpace α → Bool) (para_dim dim : Nat)
    (ds ns : List Nat) (kvs : List (List α)) (cps ws out_c out_w : List α)
    (out_d : List ℚ)
    (hds : ds.length = para_dim) (hns : ns.length = para_dim)
    (hkvs : kvs.length = para_dim)
    (hkn : ∀ i, i < para_dim → (kvs.getD i []).length = ns.getD i 0 + ds.getD i 0 + 1)
    (hcps : cps.length = ns.prod * dim) (hws : ws.length = ns.prod)
    (hacc : accepts ⟨kvs, ds.map (fun n : Nat => (n : Int))⟩ = true)
    (hod : out_d.length = para_dim) (hoc : out_c.length = cps.length)
    (how : out_w.length = ws.length) :
    (∃ cps_out,
      (Nurbs.fromRaw accepts para_dim dim (ds.map (fun n : Nat => (n : ℚ))) kvs cps ws).bind
          (fun n => n.SplinepyCurrentProperties out_d out_c out_w)
        = some ⟨ds.map (fun n : Nat => (n : ℚ)), kvs, cps_out, ws⟩ ∧
      cps_out.length = cps.length ∧
      ∀ i j, i < ns.prod → j < dim →
        cps_out[i * dim + j]?
          = some (cps.getD (i * dim + j) 0 * ws.getD i 0 / ws.getD i 0)) ∧
    ((∀ p, p < cps.length →
        cps.getD p 0 * ws.getD (p / dim) 0 / ws.getD (p / dim) 0 = cps.getD p 0) →
      (Nurbs.fromRaw accepts para_dim dim (ds.map (fun n : Nat => (n : ℚ))) kvs cps ws).bind
          (fun n => n.SplinepyCurrentProperties out_d out_c out_w)
        = some ⟨ds.map (fun n : Nat => (n : ℚ)), kvs, cps, ws⟩) := by
  subst hds
  have h := nurbs_round_trip_reweighted accepts dim ds ns kvs cps ws out_c out_w out_d hns
    hkvs hkn hcps hws hacc hod hoc how
  constructor
  · refine ⟨reweighted dim cps ws, h, reweighted_length dim cps ws, ?_⟩
    intro i j hi hj
    have hb := block_index_lt hi hj
    rw [← reweighted_getD dim ns.prod cps ws hcps i j hi hj]
    exact readAt_getD _ _ 0 (by rw [reweighted_length]; omega)
  · intro hexact
    rw [h, reweighted_eq_self dim cps ws hexact]

/-- Witness for the amended C2: a quadratic NURBS curve in the plane with
three control points and weights `1, 2, 3`, in exact arithmetic. -/
theorem nurbs_round_trip_scalar_witness :
    (Nurbs.fromRaw (fun _ => true) 1 2 ([2].map (fun n : Nat => (n : ℚ)))
        [[0, 0, 0, 1, 1, 1]] [0, 0, 1, 1, 2, 0] [(1 : ℚ), 2, 3]).bind
        (fun n => n.SplinepyCurrentProperties [9] (List.replicate 6 9) [9, 9, 9])
      = some ⟨[2].map (fun n : Nat => (n : ℚ)), [[0, 0, 0, 1, 1, 1]],
          [0, 0, 1, 1, 2, 0], [1, 2, 3]⟩ :=
  (nurbs_round_trip_scalar (fun _ => true) 1 2 [2] [3] [[0, 0, 0, 1, 1, 1]]
    [0, 0, 1, 1, 2, 0] [(1 : ℚ), 2, 3] (List.replicate 6 9) [9, 9, 9] [9] (by decide)
    (by decide) (by decide) (by intro i hi; interval_cases i; rfl) (by decide) (by decide)
    rfl (by decide) (by decide) (by decide)).2
    (by
      intro p hp
      have hp6 : p < 6 := hp
      interval_cases p <;> norm_num [List.getD])

theorem maxFinite_pos : (0 : ℚ) < maxFinite := by
  unfold maxFinite
  norm_num

theorem maxFinite_lt_pow : maxFinite < (2 : ℚ) ^ 1000 * 2 ^ 30 := by
  unfold maxFinite
  norm_num

theorem binary64_mul_ofRat (a b : ℚ) :
    Binary64.ofRat a * Binary64.ofRat b = ⟨(Real64.finite (a * b)).overflow⟩ := rfl

theorem binary64_posInf_div_ofRat (b : ℚ) (hb : 0 ≤ b) :
    (⟨Real64.posInf⟩ : Binary64) / Binary64.ofRat b = ⟨Real64.posInf⟩ := by
  show (⟨(Real64.div Real64.posInf (Real64.finite b)).overflow⟩ : Binary64) = _
  simp [Real64.div, hb, Real64.overflow]

theorem binary64_zero_mul_div_one :
    Binary64.ofRat 0 * Binary64.ofRat 1 / Binary64.ofRat 1 = Binary64.ofRat 0 := by
  have h0 : ¬ maxFinite < 0 := not_lt.mpr (le_of_lt maxFinite_pos)
  have h1 : ¬ (0 : ℚ) < -maxFinite := by
    have := maxFinite_pos
    intro h
    linarith
  have hm : Binary64.ofRat 0 * Binary64.ofRat 1 = Binary64.ofRat 0 := by
    rw [binary64_mul_ofRat]
    simp [Real64.overflow, h0, h1, Binary64.ofRat]
  rw [hm]
  show (⟨(Real64.div (Real64.finite 0) (Real64.finite 1)).overflow⟩ : Binary64) = _
  simp [Real64.div, Real64.overflow, h0, h1, Binary64.ofRat]

theorem binary64_big_mul_div :
    Binary64.ofRat (2 ^ 1000) * Binary64.ofRat (2 ^ 30) / Binary64.ofRat (2 ^ 30)
      = ⟨Real64.posInf⟩ := by
  have hm : Binary64.ofRat (2 ^ 1000) * Binary64.ofRat (2 ^ 30) = ⟨Real64.posInf⟩ := by
    rw [binary64_mul_ofRat]
    simp only [Real64.overflow, if_pos maxFinite_lt_pow]
  rw [hm]
  exact binary64_posInf_div_ofRat _ (by positivity)

/-- C2, as it fails on the code: the degree-one NURBS curve with knots
`0, 0, 1, 1`, control points `2^1000, 0` and weights `2^30, 1`, all of them
values of a `double`, in the arithmetic of a `double`'s range. The product
`2^1000 * 2^30` overflows, so the first control point is stored as infinity
and written back as infinity, not as `2^1000`; the other products and
quotients are exact. -/
theorem nurbs_round_trip_overflow :
    (Nurbs.fromRaw (fun _ => true) 1 1 [1]
        [[Binary64.ofRat 0, Binary64.ofRat 0, Binary64.ofRat 1, Binary64.ofRat 1]]
        [Binary64.ofRat (2 ^ 1000), Binary64.ofRat 0]
        [Binary64.ofRat (2 ^ 30), Binary64.ofRat 1]).bind
        (fun n => n.SplinepyCurrentProperties [0] [Binary64.ofRat 0, Binary64.ofRat 0]
          [Binary64.ofRat 0, Binary64.ofRat 0])
      = some ⟨[1],
          [[Binary64.ofRat 0, Binary64.ofRat 0, Binary64.ofRat 1, Binary64.ofRat 1]],
          [⟨Real64.posInf⟩, Binary64.ofRat 0],
          [Binary64.ofRat (2 ^ 30), Binary64.ofRat 1]⟩ ∧
    (⟨Real64.posInf⟩ : Binary64) ≠ Binary64.ofRat (2 ^ 1000) := by
  constructor
  · have h := nurbs_round_trip_reweighted (fun _ => true) 1 [1] [2]
      [[Binary64.ofRat 0, Binary64.ofRat 0, Binary64.ofRat 1, Binary64.ofRat 1]]
      [Binary64.ofRat (2 ^ 1000), Binary64.ofRat 0]
      [Binary64.ofRat (2 ^ 30), Binary64.ofRat 1]
      [Binary64.ofRat 0, Binary64.ofRat 0] [Binary64.ofRat 0, Binary64.ofRat 0] [0]
      rfl rfl (by intro i hi; have : i < 1 := hi; interval_cases i; rfl) rfl rfl rfl rfl
      rfl rfl
    simp only [List.map, Nat.cast_one, List.length_cons, List.length_nil] at h
    rw [h]
    have hr : reweighted 1 [Binary64.ofRat (2 ^ 1000), Binary64.ofRat 0]
        [Binary64.ofRat (2 ^ 30), Binary64.ofRat 1]
        = [⟨Real64.posInf⟩, Binary64.ofRat 0] := by
      simp only [reweighted, List.length_cons, List.length_nil, List.range_succ,
        List.range_zero, List.nil_append, List.cons_append, List.map, Nat.div_one,
        List.getD_cons_zero, List.getD_cons_succ]
      rw [binary64_big_mul_div, binary64_zero_mul_div_one]
    rw [hr]
  · intro h
    have h2 := congrArg Binary64.val h
    simp [Binary64.ofRat] at h2

/-! ## Rational basis evaluation -/

/-- The accumulation loop of the basis evaluation, at a fixed parametric
coordinate: after `m` iterations the counter is `m`, `W` is the running
total of the numerators, and the first `m` entries of both buffers are
written. -/
theorem basis_accumulate_loop {α : Type} [Zero α] [Add α] [Mul α]
    (lib : BasisFunctions α) (self : Nurbs α) (pc basis : List α) (support : List Int)
    (hidx : ∀ k, k < lib.count self.base.parameter_space →
      lib.index1d self.base.parameter_space pc k
          < self.base.weighted_vector_space.coordinates.length ∧
        self.dim < (self.base.weighted_vector_space.coordinates.getD
          (lib.index1d self.base.parameter_space pc k) []).length)
    (m : Nat) (hm : m ≤ lib.count self.base.parameter_space)
    (hb : lib.count self.base.parameter_space ≤ basis.length)
    (hs : lib.count self.base.parameter_space ≤ support.length) :
    ∃ B S, forLoop m
      (fun k (st : BasisLoopState α) =>
        let support_id := lib.index1d self.base.parameter_space pc k
        let evaluated := lib.evaluate self.base.parameter_space pc k
        (readAt self.base.weighted_vector_space.coordinates support_id).bind fun coordinate =>
        (readAt coordinate self.dim).bind fun w =>
        let N_times_w := evaluated * w
        (writeAt st.basis st.i N_times_w).bind fun basis1 =>
        (writeAt st.support st.i (support_id : Int)).bind fun support1 =>
        some ⟨st.i + 1, st.W + N_times_w, basis1, support1⟩)
      ⟨0, 0, basis, support⟩
      = some ⟨m, ((List.range m).map (self.numerator lib pc)).foldl (fun W x => W + x) 0,
          B, S⟩ ∧
      B.length = basis.length ∧ S.length = support.length ∧
      (∀ p, B[p]? = if p < m then some (self.numerator lib pc p) else basis[p]?) ∧
      (∀ p, S[p]? = if p < m
        then some ((lib.index1d self.base.parameter_space pc p : Nat) : Int)
        else support[p]?) := by
  induction m with
  | zero => exact ⟨basis, support, rfl, rfl, rfl, by simp, by simp⟩
  | succ k ih =>
    obtain ⟨B, S, h1, hB, hS, hBp, hSp⟩ := ih (by omega)
    obtain ⟨hi1, hi2⟩ := hidx k (by omega)
    obtain ⟨B2, hw, hB2, hBp2⟩ := writeAt_fill (self.numerator lib pc) B k (by omega)
    obtain ⟨S2, hwS, hS2, hSp2⟩ := writeAt_fill
      (fun p => ((lib.index1d self.base.parameter_space pc p : Nat) : Int)) S k (by omega)
    have hr1 := readAt_getD self.base.weighted_vector_space.coordinates
      (lib.index1d self.base.parameter_space pc k) [] hi1
    have hr2 := readAt_getD (self.base.weighted_vector_space.coordinates.getD
      (lib.index1d self.base.parameter_space pc k) []) self.dim 0 hi2
    refine ⟨B2, S2, ?_, by omega, by omega, ?_, ?_⟩
    · rw [forLoop_succ, h1]
      simp only [Option.some_bind, hr1, hr2]
      have hw' : writeAt B k (lib.evaluate self.base.parameter_space pc k
          * (self.base.weighted_vector_space.coordinates.getD
              (lib.index1d self.base.parameter_space pc k) []).getD self.dim 0)
          = some B2 := hw
      rw [hw', Option.some_bind, hwS, Option.some_bind, List.range_succ, List.map_append,
        List.foldl_append]
      rfl
    · intro p
      rw [hBp2 p, hBp p]
      by_cases c : k ≤ p ∧ p < k + 1
      · have : p < k + 1 := by omega
        simp [c, this]
      · by_cases c2 : p < k
        · have : p < k + 1 := by omega
          simp [c, c2, this]
        · have : ¬ p < k + 1 := by omega
          simp [c, c2, this]
    · intro p
      rw [hSp2 p, hSp p]
      by_cases c : k ≤ p ∧ p < k + 1
      · have : p < k + 1 := by omega
        simp [c, this]
      · by_cases c2 : p < k
        · have : p < k + 1 := by omega
          simp [c, c2, this]
        · have : ¬ p < k + 1 := by omega
          simp [c, c2, this]

/-- The normalisation loop `basis[i] *= W_inv` of the basis evaluation. -/
theorem basis_scale_loop {α : Type} [Mul α] (num : Nat → α) (c : α) (n : Nat) (B : List α)
    (hB : B.length = n) (hBp : ∀ p, p < n → B[p]? = some (num p)) :
    forLoop n (fun i (b : List α) => (readAt b i).bind fun x => writeAt b i (x * c)) B
      = some ((List.range n).map (fun k => num k * c)) := by
  obtain ⟨st, h1, h2, h3⟩ := forLoop_segments (fun p => num p * c) (fun i => i) n
    (fun i (b : List α) => (readAt b i).bind fun x => writeAt b i (x * c)) B
    (fun i _ => Nat.le_succ i) (by
      intro i hi t ht hagree
      have hr : readAt t i = some (num i) := by
        rw [readAt, hagree i (le_refl i), hBp i hi]
      dsimp only
      rw [hr, Option.some_bind]
      exact writeAt_fill (fun p => num p * c) t i (by omega))
  rw [h1]
  congr 1
  apply list_eq_of_pointwise st _ n (fun p => num p * c) (by simp)
  · intro p
    rw [h3 p]
    by_cases hp : p < n
    · simp [hp]
    · simp [hp]
      omega
  · intro p hp
    simp [hp]

/-- What `Nurbs::SplinepyBasisAndSupport` returns, over any scalar type: it
never fails on buffers of the right size, and entry `k` of the basis buffer
is `N_k * w_k * (1 / W)`, whatever the value of `W`. -/
theorem basis_and_support_spec {α : Type} [Zero α] [One α] [Add α] [Mul α] [Div α]
    (lib : BasisFunctions α) (self : Nurbs α) (pc basis : List α) (support : List Int)
    (hpc : pc.length = self.para_dim)
    (hidx : ∀ k, k < lib.count self.base.parameter_space →
      lib.index1d self.base.parameter_space pc k
          < self.base.weighted_vector_space.coordinates.length ∧
        self.dim < (self.base.weighted_vector_space.coordinates.getD
          (lib.index1d self.base.parameter_space pc k) []).length)
    (hb : basis.length = lib.count self.base.parameter_space)
    (hs : support.length = lib.count self.base.parameter_space) :
    Nurbs.SplinepyBasisAndSupport lib self pc basis support
      = some ((List.range (lib.count self.base.parameter_space)).map
            (fun k => self.numerator lib pc k * (1 / self.totalWeight lib pc)),
          (List.range (lib.count self.base.parameter_space)).map
            (fun k => ((lib.index1d self.base.parameter_space pc k : Nat) : Int))) := by
  have hcopy : forLoop self.para_dim
      (fun i (o : List α) => (readAt pc i).bind fun u => writeAt o i u)
      (List.replicate self.para_dim 0) = some pc := by
    have h := @copy_loop α α ⟨0⟩ id pc (List.replicate self.para_dim 0) (by simp [hpc])
    rw [hpc] at h
    simpa using h
  obtain ⟨B, S, h1, hB, hS, hBp, hSp⟩ := basis_accumulate_loop lib self pc basis support hidx
    (lib.count self.base.parameter_space) (le_refl _) (by omega) (by omega)
  have hscale := basis_scale_loop (self.numerator lib pc) (1 / self.totalWeight lib pc)
    (lib.count self.base.parameter_space) B (by omega) (by
      intro p hp
      rw [hBp p, if_pos hp])
  have hSeq : S = (List.range (lib.count self.base.parameter_space)).map
      (fun k => ((lib.index1d self.base.parameter_space pc k : Nat) : Int)) := by
    apply list_eq_of_pointwise S _ (lib.count self.base.parameter_space)
      (fun k => ((lib.index1d self.base.parameter_space pc k : Nat) : Int)) (by simp)
    · intro p
      rw [hSp p]
      by_cases hp : p < lib.count self.base.parameter_space
      · simp [hp]
      · simp [hp]
        omega
    · intro p hp
      simp [hp]
  unfold Nurbs.SplinepyBasisAndSupport
  simp only [hcopy, Option.some_bind, h1]
  rw [show (1 / ((List.range (lib.count self.base.parameter_space)).map
      (self.numerator lib pc)).foldl (fun W x => W + x) 0)
      = 1 / self.totalWeight lib pc from rfl, hscale, Option.some_bind, hSeq]
theorem totalWeight_eq_sum (lib : BasisFunctions ℚ) (self : Nurbs ℚ) (pc : List ℚ) :
    self.totalWeight lib pc
      = ((List.range (lib.count self.base.parameter_space)).map
          (self.numerator lib pc)).sum := by
  unfold Nurbs.totalWeight
  rw [List.sum_eq_foldl]

/-- C3 (rational partition of unity). For every NURBS and every parametric
coordinate for which the library's support window lies inside the control
net and the total weight `W` is non-zero, `SplinepyBasisAndSupport` returns,
writes `N_k * w_k / W` into entry `k` of the basis buffer, and the entries
sum to one. -/
theorem rational_partition_of_unity (lib : BasisFunctions ℚ) (self : Nurbs ℚ)
    (pc basis : List ℚ) (support : List Int)
    (hpc : pc.length = self.para_dim)
    (hidx : ∀ k, k < lib.count self.base.parameter_space →
      lib.index1d self.base.parameter_space pc k
          < self.base.weighted_vector_space.coordinates.length ∧
        self.dim < (self.base.weighted_vector_space.coordinates.getD
          (lib.index1d self.base.parameter_space pc k) []).length)
    (hb : basis.length = lib.count self.base.parameter_space)
    (hs : support.length = lib.count self.base.parameter_space)
    (hW : self.totalWeight lib pc ≠ 0) :
    ∃ b s, Nurbs.SplinepyBasisAndSupport lib self pc basis support = some (b, s) ∧
      b.length = lib.count self.base.parameter_space ∧
      (∀ k, k < lib.count self.base.parameter_space →
        b[k]? = some (self.numerator lib pc k / self.totalWeight lib pc)) ∧
      b.sum = 1 := by
  refine ⟨_, _, basis_and_support_spec lib self pc basis support hpc hidx hb hs, by simp,
    ?_, ?_⟩
  · intro k hk
    simp [hk, div_eq_mul_inv]
  · rw [List.sum_map_mul_right, ← totalWeight_eq_sum]
    field_simp

/-- Witness for C3: the degree-one NURBS curve with control points `0, 1`
and weights `1, 3`, evaluated at `u = 1/2`. -/
theorem rational_partition_of_unity_witness :
    ∃ b s, Nurbs.SplinepyBasisAndSupport (linearBasisAtHalf ℚ (1 / 2))
        ⟨1, 1, ⟨⟨[[0, 0, 1, 1]], [1]⟩, ⟨[[0, 1], [3, 3]]⟩⟩⟩ [1 / 2] [0, 0] [0, 0]
        = some (b, s) ∧
      b.length = 2 ∧
      (∀ k, k < 2 →
        b[k]? = some (Nurbs.numerator (linearBasisAtHalf ℚ (1 / 2))
            ⟨1, 1, ⟨⟨[[0, 0, 1, 1]], [1]⟩, ⟨[[0, 1], [3, 3]]⟩⟩⟩ [1 / 2] k
          / Nurbs.totalWeight (linearBasisAtHalf ℚ (1 / 2))
            ⟨1, 1, ⟨⟨[[0, 0, 1, 1]], [1]⟩, ⟨[[0, 1], [3, 3]]⟩⟩⟩ [1 / 2])) ∧
      b.sum = 1 :=
  rational_partition_of_unity (linearBasisAtHalf ℚ (1 / 2))
    ⟨1, 1, ⟨⟨[[0, 0, 1, 1]], [1]⟩, ⟨[[0, 1], [3, 3]]⟩⟩⟩ [1 / 2] [0, 0] [0, 0] rfl
    (by
      intro k hk
      have hk2 : k < 2 := hk
      interval_cases k <;> simp [linearBasisAtHalf])
    rfl rfl
    (by
      simp [Nurbs.totalWeight, Nurbs.numerator, Nurbs.supportWeight, linearBasisAtHalf,
        List.range_succ]
      norm_num)
theorem real64_mul_finite (a b : ℚ) :
    (Real64.finite a * Real64.finite b : Real64) = Real64.finite (a * b) := rfl

theorem real64_add_finite (a b : ℚ) :
    (Real64.finite a + Real64.finite b : Real64) = Real64.finite (a + b) := rfl

theorem real64_one_div_zero : (1 / Real64.finite 0 : Real64) = Real64.posInf := by
  show Real64.div (Real64.finite 1) (Real64.finite 0) = Real64.posInf
  simp [Real64.div, Real64.signedInf]

theorem real64_zero_mul_posInf :
    (Real64.finite 0 * Real64.posInf : Real64) = Real64.nan := by
  show Real64.mul (Real64.finite 0) Real64.posInf = Real64.nan
  simp [Real64.mul, Real64.signedInf]

theorem foldl_add_finite_zero (num : Nat → Real64) (m : Nat)
    (h : ∀ k, k < m → num k = Real64.finite 0) :
    ((List.range m).map num).foldl (fun W x => W + x) (0 : Real64) = Real64.finite 0 := by
  induction m with
  | zero => rfl
  | succ k ih =>
    rw [List.range_succ, List.map_append, List.foldl_append, ih (fun i hi => h i (by omega))]
    simp only [List.map_cons, List.map_nil, List.foldl_cons, List.foldl_nil]
    rw [h k (by omega), real64_add_finite, add_zero]

/-- C4, as it fails on the code: the degree-one NURBS curve constructed with
control points `0, 1` and weights `0, 0`, evaluated at `u = 1/2`. The basis
evaluation returns normally and both basis values are NaN. -/
theorem degenerate_weights_return_nan :
    (Nurbs.fromRaw (fun _ => true) 1 1 [1] [[0, 0, 1, 1]] [0, 1] [0, 0]).map
        (fun n => Nurbs.SplinepyBasisAndSupport (linearBasisAtHalf Real64 (.finite (1 / 2)))
          n.toReal64 [.finite (1 / 2)] [.finite 0, .finite 0] [0, 0])
      = some (some ([Real64.nan, Real64.nan], [0, 1])) := by
  have hc : Nurbs.fromRaw (fun _ => true) 1 1 [1] [[0, 0, 1, 1]] [0, 1] [(0 : ℚ), 0]
      = some ⟨1, 1, ⟨⟨[[0, 0, 1, 1]], [1]⟩, ⟨[[0, 0], [0, 0]]⟩⟩⟩ := by
    have h := nurbs_init_spec (fun _ => true) 1 [1] [2] [[0, 0, 1, 1]] [0, 1] [(0 : ℚ), 0]
      rfl rfl
      (by intro i hi; have : i < 1 := hi; interval_cases i; rfl) rfl rfl rfl
    simp only [Nurbs.fromRaw]
    simp only [List.map, Nat.cast_one, List.length_cons, List.length_nil] at h
    rw [h]
    simp [WeightedVectorSpace.ofCoordinatesAndWeights, List.range_succ]
  rw [hc]
  simp only [Option.map_some']
  rw [basis_and_support_spec _ _ _ _ _ rfl (by
      intro k hk
      have hk2 : k < 2 := hk
      interval_cases k <;> simp [linearBasisAtHalf, Nurbs.toReal64]) rfl rfl]
  have hn : ∀ k, Nurbs.numerator (linearBasisAtHalf Real64 (.finite (1 / 2)))
      (Nurbs.toReal64 ⟨1, 1, ⟨⟨[[0, 0, 1, 1]], [1]⟩, ⟨[[0, 0], [0, 0]]⟩⟩⟩)
      [.finite (1 / 2)] k = Real64.finite 0 := by
    intro k
    have hw : Nurbs.supportWeight
        (Nurbs.toReal64 ⟨1, 1, ⟨⟨[[0, 0, 1, 1]], [1]⟩, ⟨[[0, 0], [0, 0]]⟩⟩⟩) k
        = Real64.finite 0 := by
      match k with
      | 0 => rfl
      | 1 => rfl
      | _ + 2 => rfl
    show Real64.finite (1 / 2) * Nurbs.supportWeight _ k = Real64.finite 0
    rw [hw, real64_mul_finite, mul_zero]
  have hW : Nurbs.totalWeight (linearBasisAtHalf Real64 (.finite (1 / 2)))
      (Nurbs.toReal64 ⟨1, 1, ⟨⟨[[0, 0, 1, 1]], [1]⟩, ⟨[[0, 0], [0, 0]]⟩⟩⟩)
      [.finite (1 / 2)] = Real64.finite 0 :=
    foldl_add_finite_zero _ _ (fun k _ => hn k)
  simp only [hn, hW, real64_one_div_zero, real64_zero_mul_posInf]
  rfl

/-- C4, amended. For a rational spline over IEEE scalars whose basis values
are finite and whose supporting weights are all `0.0`, the rational basis
evaluation raises no error: it returns normally, with NaN in every entry of
the basis buffer and the support ids in the support buffer. -/
theorem degenerate_weights_no_error (lib : BasisFunctions Real64) (self : Nurbs Real64)
    (pc basis : List Real64) (support : List Int)
    (hpc : pc.length = self.para_dim)
    (hidx : ∀ k, k < lib.count self.base.parameter_space →
      lib.index1d self.base.parameter_space pc k
          < self.base.weighted_vector_space.coordinates.length ∧
        self.dim < (self.base.weighted_vector_space.coordinates.getD
          (lib.index1d self.base.parameter_space pc k) []).length)
    (hb : basis.length = lib.count self.base.parameter_space)
    (hs : support.length = lib.count self.base.parameter_space)
    (hfin : ∀ k, k < lib.count self.base.parameter_space →
      ∃ q, lib.evaluate self.base.parameter_space pc k = Real64.finite q)
    (hzero : ∀ k, k < lib.count self.base.parameter_space →
      self.supportWeight (lib.index1d self.base.parameter_space pc k) = Real64.finite 0) :
    Nurbs.SplinepyBasisAndSupport lib self pc basis support
      = some (List.replicate (lib.count self.base.parameter_space) Real64.nan,
          (List.range (lib.count self.base.parameter_space)).map
            (fun k => ((lib.index1d self.base.parameter_space pc k : Nat) : Int))) := by
  have hn : ∀ k, k < lib.count self.base.parameter_space →
      self.numerator lib pc k = Real64.finite 0 := by
    intro k hk
    obtain ⟨q, hq⟩ := hfin k hk
    unfold Nurbs.numerator
    rw [hq, hzero k hk, real64_mul_finite, mul_zero]
  have hW : self.totalWeight lib pc = Real64.finite 0 := foldl_add_finite_zero _ _ hn
  rw [basis_and_support_spec lib self pc basis support hpc hidx hb hs, hW,
    real64_one_div_zero]
  congr 2
  apply List.ext_getElem?
  intro p
  by_cases hp : p < lib.count self.base.parameter_space
  · simp [hp, hn p hp, real64_zero_mul_posInf]
  · have hge : lib.count self.base.parameter_space ≤ p := by omega
    rw [List.getElem?_eq_none (by simpa using hge), List.getElem?_eq_none (by simpa using hge)]

/-- Witness for the amended C4: the degree-one curve with weights `0, 0`. -/
theorem degenerate_weights_no_error_witness :
    Nurbs.SplinepyBasisAndSupport (linearBasisAtHalf Real64 (.finite (1 / 2)))
        ⟨1, 1, ⟨⟨[[.finite 0, .finite 0, .finite 1, .finite 1]], [1]⟩,
          ⟨[[.finite 0, .finite 0], [.finite 0, .finite 0]]⟩⟩⟩
        [.finite (1 / 2)] [.finite 0, .finite 0] [0, 0]
      = some (List.replicate 2 Real64.nan,
          (List.range 2).map (fun k => ((k : Nat) : Int))) :=
  degenerate_weights_no_error (linearBasisAtHalf Real64 (.finite (1 / 2)))
    ⟨1, 1, ⟨⟨[[.finite 0, .finite 0, .finite 1, .finite 1]], [1]⟩,
      ⟨[[.finite 0, .finite 0], [.finite 0, .finite 0]]⟩⟩⟩
    [.finite (1 / 2)] [.finite 0, .finite 0] [0, 0] rfl
    (by
      intro k hk
      have hk2 : k < 2 := hk
      interval_cases k <;> simp [linearBasisAtHalf])
    rfl rfl (fun _ _ => ⟨1 / 2, rfl⟩)
    (by
      intro k hk
      have hk2 : k < 2 := hk
      interval_cases k <;> rfl)
/-! ## Spline algebra -/

/-- C5 (Add compatibility). `SplinepyAdd` raises the family-name error when
the operand's family name differs from the receiver's; otherwise the
parametric-dimension error when the parametric dimensions differ; otherwise
the physical-dimension error when the physical dimensions differ; and it
returns a result exactly when all three agree, the result then being a
`Bezier` with the receiver's `para_dim` and `dim`. -/
theorem add_compatibility (self : Bezier) (a : SplinepyBase) :
    (a.SplinepySplineName ≠ self.SplinepySplineName →
      self.SplinepyAdd a
        = .error "Spline addition requires splines of the same time.") ∧
    (a.SplinepySplineName = self.SplinepySplineName →
      a.SplinepyParaDim ≠ self.SplinepyParaDim →
      self.SplinepyAdd a
        = .error "Spline addition requires splines of the same parametric dimension.") ∧
    (a.SplinepySplineName = self.SplinepySplineName →
      a.SplinepyParaDim = self.SplinepyParaDim →
      a.SplinepyDim ≠ self.SplinepyDim →
      self.SplinepyAdd a
        = .error "Spline addition requires splines of the same physical dimension") ∧
    (a.SplinepySplineName = self.SplinepySplineName →
      a.SplinepyParaDim = self.SplinepyParaDim →
      a.SplinepyDim = self.SplinepyDim →
      self.SplinepyAdd a = .ok (Kernel.Bezier self.para_dim self.dim)) ∧
    ((∃ k, self.SplinepyAdd a = .ok k) ↔
      (a.SplinepySplineName = self.SplinepySplineName ∧
        a.SplinepyParaDim = self.SplinepyParaDim ∧
        a.SplinepyDim = self.SplinepyDim)) := by
  by_cases h1 : a.SplinepySplineName = self.SplinepySplineName
  · by_cases h2 : a.SplinepyParaDim = self.SplinepyParaDim
    · by_cases h3 : a.SplinepyDim = self.SplinepyDim
      · simp [Bezier.SplinepyAdd, SplinepySplineNameMatches, SplinepyParaDimMatches,
          SplinepyDimMatches, Bezier.asBase, h1, h2, h3, Except.bind]
      · simp [Bezier.SplinepyAdd, SplinepySplineNameMatches, SplinepyParaDimMatches,
          SplinepyDimMatches, Bezier.asBase, h1, h2, h3, Ne.symm h3, Except.bind]
    · simp [Bezier.SplinepyAdd, SplinepySplineNameMatches, SplinepyParaDimMatches,
        SplinepyDimMatches, Bezier.asBase, h1, h2, Ne.symm h2, Except.bind]
  · simp [Bezier.SplinepyAdd, SplinepySplineNameMatches, SplinepyParaDimMatches,
      SplinepyDimMatches, Bezier.asBase, h1, Ne.symm h1, Except.bind]

/-- Witness for C5: adding a NURBS curve to a Bezier patch raises the
family-name error, although the parametric dimensions differ as well. -/
theorem add_compatibility_witness :
    unitSquare.SplinepyAdd sampleNurbs.asBase
      = .error "Spline addition requires splines of the same time." :=
  (add_compatibility unitSquare sampleNurbs.asBase).1 (by decide)

/-- C6 (Multiply compatibility). `SplinepyMultiply` raises an error when the
family names differ, or the parametric dimensions differ, or the operand's
physical dimension is neither `1` nor the receiver's; in every other case it
returns a spline. -/
theorem multiply_compatibility (self : Bezier) (a : SplinepyBase) :
    (a.SplinepySplineName ≠ self.SplinepySplineName →
      self.SplinepyMultiply a
        = .error "Spline multiplication requires splines of same type.") ∧
    (a.SplinepySplineName = self.SplinepySplineName →
      a.SplinepyParaDim ≠ self.SplinepyParaDim →
      self.SplinepyMultiply a
        = .error "Spline multiplication requires splines of same parametric dimension.") ∧
    (a.SplinepySplineName = self.SplinepySplineName →
      a.SplinepyParaDim = self.SplinepyParaDim →
      a.SplinepyDim ≠ 1 → a.SplinepyDim ≠ self.SplinepyDim →
      self.SplinepyMultiply a
        = .error ("Spline multiplication requires splines of either 1 or "
            ++ "same physical dimension.")) ∧
    ((∃ k, self.SplinepyMultiply a = .ok k) ↔
      (a.SplinepySplineName = self.SplinepySplineName ∧
        a.SplinepyParaDim = self.SplinepyParaDim ∧
        (a.SplinepyDim = 1 ∨ a.SplinepyDim = self.SplinepyDim))) := by
  by_cases h1 : a.SplinepySplineName = self.SplinepySplineName
  · by_cases h2 : a.SplinepyParaDim = self.SplinepyParaDim
    · by_cases h3 : a.SplinepyDim = 1
      · simp [Bezier.SplinepyMultiply, SplinepySplineNameMatches, SplinepyParaDimMatches,
          SplinepyDimMatches, Bezier.asBase, h1, h2, h3, Except.bind]
      · by_cases h4 : a.SplinepyDim = self.SplinepyDim
        · have h5 : ¬ self.SplinepyDim = 1 := by rw [← h4]; exact h3
          simp [Bezier.SplinepyMultiply, SplinepySplineNameMatches, SplinepyParaDimMatches,
            SplinepyDimMatches, Bezier.asBase, h1, h2, h3, h4, h5, Except.bind]
        · simp [Bezier.SplinepyMultiply, SplinepySplineNameMatches, SplinepyParaDimMatches,
            SplinepyDimMatches, Bezier.asBase, h1, h2, h3, h4, Ne.symm h4, Except.bind]
    · simp [Bezier.SplinepyMultiply, SplinepySplineNameMatches, SplinepyParaDimMatches,
        SplinepyDimMatches, Bezier.asBase, h1, h2, Ne.symm h2, Except.bind]
  · simp [Bezier.SplinepyMultiply, SplinepySplineNameMatches, SplinepyParaDimMatches,
      SplinepyDimMatches, Bezier.asBase, h1, Ne.symm h1, Except.bind]

/-- Witness for C6: a `Bezier<2, 3>` operand is rejected by a `Bezier<2, 2>`
receiver. -/
theorem multiply_compatibility_witness :
    unitSquare.SplinepyMultiply (Kernel.Bezier 2 3).asBase
      = .error ("Spline multiplication requires splines of either 1 or "
          ++ "same physical dimension.") :=
  (multiply_compatibility unitSquare (Kernel.Bezier 2 3).asBase).2.2.1 (by decide)
    (by decide) (by decide) (by decide)

/-- C7 (Multiply result dimension). For a compatible operand, a scalar
operand (`dim = 1`) gives a `Bezier` with the receiver's parametric and
physical dimension, and an operand of the receiver's physical dimension
`d ≠ 1` gives a scalar-field `Bezier` of physical dimension `1`. -/
theorem multiply_result_dimension (self : Bezier) (a : SplinepyBase)
    (hname : a.SplinepySplineName = self.SplinepySplineName)
    (hpara : a.SplinepyParaDim = self.SplinepyParaDim) :
    (a.SplinepyDim = 1 →
      ∃ k, self.SplinepyMultiply a = .ok k ∧ k = Kernel.Bezier self.para_dim self.dim ∧
        k.SplinepyParaDim = self.SplinepyParaDim ∧ k.SplinepyDim = self.SplinepyDim ∧
        k.SplinepyIsRational = false) ∧
    (a.SplinepyDim = self.SplinepyDim → self.SplinepyDim ≠ 1 →
      ∃ k, self.SplinepyMultiply a = .ok k ∧ k = Kernel.Bezier self.para_dim 1 ∧
        k.SplinepyParaDim = self.SplinepyParaDim ∧ k.SplinepyDim = 1 ∧
        k.SplinepyIsRational = false) := by
  constructor
  · intro h3
    refine ⟨_, ?_, rfl, rfl, rfl, rfl⟩
    simp [Bezier.SplinepyMultiply, SplinepySplineNameMatches, SplinepyParaDimMatches,
      Bezier.asBase, hname, hpara, h3, Except.bind]
  · intro h4 hd
    have h3 : a.SplinepyDim ≠ 1 := by rw [h4]; exact hd
    refine ⟨_, ?_, rfl, rfl, rfl, rfl⟩
    have h5 : ¬ self.SplinepyDim = 1 := hd
    simp [Bezier.SplinepyMultiply, SplinepySplineNameMatches, SplinepyParaDimMatches,
      SplinepyDimMatches, Bezier.asBase, hname, hpara, h3, h4, h5, Except.bind]

/-- Witness for C7: the unit square times a scalar field on the same
parametric domain, and times a second planar patch. -/
theorem multiply_result_dimension_witness :
    (∃ k, unitSquare.SplinepyMultiply (Kernel.Bezier 2 1).asBase = .ok k ∧
        k = Kernel.Bezier unitSquare.para_dim unitSquare.dim ∧
        k.SplinepyParaDim = unitSquare.SplinepyParaDim ∧
        k.SplinepyDim = unitSquare.SplinepyDim ∧ k.SplinepyIsRational = false) ∧
    (∃ k, unitSquare.SplinepyMultiply (Kernel.Bezier 2 2).asBase = .ok k ∧
        k = Kernel.Bezier unitSquare.para_dim 1 ∧
        k.SplinepyParaDim = unitSquare.SplinepyParaDim ∧ k.SplinepyDim = 1 ∧
        k.SplinepyIsRational = false) :=
  ⟨(multiply_result_dimension unitSquare (Kernel.Bezier 2 1).asBase rfl rfl).1 rfl,
    (multiply_result_dimension unitSquare (Kernel.Bezier 2 2).asBase rfl rfl).2 rfl
      (by decide)⟩
/-- `SplinepyCompose` on an inner function that passes both checks: the
dispatch on rationality and parametric dimension. -/
theorem compose_of_checks (self : Bezier) (inner : SplinepyBase)
    (hfamily : stringFind "Bezier".toList inner.SplinepySplineName.toList 0 ≠ none)
    (hdim : inner.SplinepyDim = self.SplinepyParaDim) :
    self.SplinepyCompose inner
      = if inner.SplinepyIsRational then
          match inner.SplinepyParaDim with
          | 1 => .ok (some (Kernel.RationalBezier 1 self.dim))
          | 2 => .ok (some (Kernel.RationalBezier 2 self.dim))
          | _ => .ok none
        else
          match inner.SplinepyParaDim with
          | 1 => .ok (some (Kernel.Bezier 1 self.dim))
          | 2 => .ok (some (Kernel.Bezier 2 self.dim))
          | _ => .ok none := by
  unfold Bezier.SplinepyCompose
  rw [if_neg hfamily, if_neg (not_not.mpr hdim)]
  rfl

/-- C8 (Compose rejects incompatible inner functions). `SplinepyCompose`
raises an error when the inner function's family name does not contain
"Bezier", and raises an error when the inner function's physical dimension
is not the outer function's parametric dimension; the family check comes
first, so an inner function failing both is reported with the family
message. -/
theorem compose_rejects (self : Bezier) (inner : SplinepyBase) :
    (stringFind "Bezier".toList inner.SplinepySplineName.toList 0 = none →
      self.SplinepyCompose inner
        = PrintAndThrowError
            ["Bezier composition requires inner function to be a bezier type.",
             "Given inner function -", inner.SplinepyWhatAmI]) ∧
    (stringFind "Bezier".toList inner.SplinepySplineName.toList 0 ≠ none →
      inner.SplinepyDim ≠ self.SplinepyParaDim →
      self.SplinepyCompose inner
        = PrintAndThrowError
            ["Spline composition requires inner function to have same physical",
             "dimension as outer function's parametric dimension.", "Outer Function:",
             self.SplinepyWhatAmI, "/", "Inner Function:", inner.SplinepyWhatAmI]) ∧
    ((stringFind "Bezier".toList inner.SplinepySplineName.toList 0 = none ∨
        inner.SplinepyDim ≠ self.SplinepyParaDim) →
      ∃ message, self.SplinepyCompose inner = .error message) := by
  have hfam : stringFind "Bezier".toList inner.SplinepySplineName.toList 0 = none →
      self.SplinepyCompose inner
        = PrintAndThrowError
            ["Bezier composition requires inner function to be a bezier type.",
             "Given inner function -", inner.SplinepyWhatAmI] := by
    intro h1
    unfold Bezier.SplinepyCompose
    rw [if_pos h1]
    rfl
  have hdim : stringFind "Bezier".toList inner.SplinepySplineName.toList 0 ≠ none →
      inner.SplinepyDim ≠ self.SplinepyParaDim →
      self.SplinepyCompose inner
        = PrintAndThrowError
            ["Spline composition requires inner function to have same physical",
             "dimension as outer function's parametric dimension.", "Outer Function:",
             self.SplinepyWhatAmI, "/", "Inner Function:", inner.SplinepyWhatAmI] := by
    intro h1 h2
    unfold Bezier.SplinepyCompose
    rw [if_neg h1, if_pos h2]
    rfl
  refine ⟨hfam, hdim, ?_⟩
  intro h
  by_cases h1 : stringFind "Bezier".toList inner.SplinepySplineName.toList 0 = none
  · exact ⟨_, hfam h1⟩
  · rcases h with h | h
    · exact absurd h h1
    · exact ⟨_, hdim h1 h⟩

/-- Witness for C8: a NURBS curve as inner function of the unit square is
rejected with the family message. -/
theorem compose_rejects_witness :
    unitSquare.SplinepyCompose sampleNurbs.asBase
      = PrintAndThrowError
          ["Bezier composition requires inner function to be a bezier type.",
           "Given inner function -", sampleNurbs.asBase.SplinepyWhatAmI] :=
  (compose_rejects unitSquare sampleNurbs.asBase).1 (by decide)

/-- C9 (Compose result type). For an inner function that passes the two
checks: when its parametric dimension is `1` or `2` the result is a spline
with the inner function's parametric dimension, the outer function's
physical dimension, and rational exactly when the inner function is; for any
other inner parametric dimension no result is produced. -/
theorem compose_result_type (self : Bezier) (inner : SplinepyBase)
    (hfamily : stringFind "Bezier".toList inner.SplinepySplineName.toList 0 ≠ none)
    (hdim : inner.SplinepyDim = self.SplinepyParaDim) :
    ((inner.SplinepyParaDim = 1 ∨ inner.SplinepyParaDim = 2) →
      ∃ k, self.SplinepyCompose inner = .ok (some k) ∧
        k.SplinepyParaDim = inner.SplinepyParaDim ∧
        k.SplinepyDim = self.SplinepyDim ∧
        k.SplinepyIsRational = inner.SplinepyIsRational) ∧
    (inner.SplinepyParaDim ≠ 1 → inner.SplinepyParaDim ≠ 2 →
      self.SplinepyCompose inner = .ok none) := by
  rw [compose_of_checks self inner hfamily hdim]
  constructor
  · intro hp
    cases hr : inner.SplinepyIsRational <;> rcases hp with hp | hp <;>
      simp [hp, Kernel.SplinepyParaDim, Kernel.SplinepyDim, Kernel.SplinepyIsRational,
        Bezier.SplinepyDim]
  · intro h1 h2
    cases hr : inner.SplinepyIsRational <;> simp

/-- Witness for C9: a rational Bezier surface into the plane composed into
the unit square gives a rational Bezier surface; a rational Bezier volume
gives no result. -/
theorem compose_result_type_witness :
    (∃ k, unitSquare.SplinepyCompose (Kernel.RationalBezier 2 2).asBase = .ok (some k) ∧
        k.SplinepyParaDim = (Kernel.RationalBezier 2 2).asBase.SplinepyParaDim ∧
        k.SplinepyDim = unitSquare.SplinepyDim ∧
        k.SplinepyIsRational = (Kernel.RationalBezier 2 2).asBase.SplinepyIsRational) ∧
    unitSquare.SplinepyCompose (Kernel.RationalBezier 3 2).asBase = .ok none :=
  ⟨(compose_result_type unitSquare (Kernel.RationalBezier 2 2).asBase (by decide) rfl).1
      (Or.inr rfl),
    (compose_result_type unitSquare (Kernel.RationalBezier 3 2).asBase (by decide) rfl).2
      (by decide) (by decide)⟩

/-- C10, as it fails on the code: a `Bezier<2, 2>` outer function composed
with a `Bezier<1, 2>` inner curve. The parametric dimensions differ, and the
composition is accepted and returns a `Bezier<1, 2>`. -/
theorem compose_accepts_other_para_dim :
    (Kernel.Bezier 1 2).asBase.SplinepyParaDim ≠ unitSquare.SplinepyParaDim ∧
    unitSquare.SplinepyCompose (Kernel.Bezier 1 2).asBase
      = .ok (some (Kernel.Bezier 1 2)) := by
  refine ⟨by decide, ?_⟩
  rw [compose_of_checks unitSquare (Kernel.Bezier 1 2).asBase (by decide) rfl]
  rfl

/-- C10, amended. `SplinepyCompose` does not compare the parametric
dimensions of the two splines. It checks the inner function's family name
and that the inner function's physical dimension equals the outer
function's parametric dimension; an inner function that passes these two
checks is never rejected, whatever its parametric dimension. -/
theorem compose_checks_inner_dim_only (self : Bezier) (inner : SplinepyBase)
    (hfamily : stringFind "Bezier".toList inner.SplinepySplineName.toList 0 ≠ none)
    (hdim : inner.SplinepyDim = self.SplinepyParaDim) :
    ∃ r, self.SplinepyCompose inner = .ok r := by
  rw [compose_of_checks self inner hfamily hdim]
  cases hr : inner.SplinepyIsRational <;> simp <;> split <;> simp

/-- Witness for the amended C10: the curve-into-surface composition. -/
theorem compose_checks_inner_dim_only_witness :
    ∃ r, unitSquare.SplinepyCompose (Kernel.Bezier 1 2).asBase = .ok r :=
  compose_checks_inner_dim_only unitSquare (Kernel.Bezier 1 2).asBase (by decide) rfl

/-! ## Factories -/

theorem bezier_fromRaw_spec (p dim : Nat) (ds : List Nat) (cps : List ℚ)
    (hds : ds.length = p) (hdim : 0 < dim)
    (hcps : cps.length = (ds.map (fun n => n + 1)).prod * dim) :
    ∃ st, Bezier.fromRaw p dim (ds.map (fun n : Nat => (n : ℚ))) cps
      = some ⟨p, dim, ⟨ds, st⟩⟩ := by
  subst hds
  obtain ⟨st, h1, _, _⟩ := bezier_init_spec dim ds cps hdim hcps
  exact ⟨st, by simp [Bezier.fromRaw, h1]⟩

theorem nurbs_fromRaw_spec (accepts : ParameterSpace ℚ → Bool) (p dim : Nat)
    (ds ns : List Nat) (kvs : List (List ℚ)) (cps ws : List ℚ)
    (hds : ds.length = p) (hns : ns.length = p) (hkvs : kvs.length = p)
    (hkn : ∀ i, i < p → (kvs.getD i []).length = ns.getD i 0 + ds.getD i 0 + 1)
    (hcps : cps.length = ns.prod * dim) (hws : ws.length = ns.prod)
    (hacc : accepts ⟨kvs, ds.map (fun n : Nat => (n : Int))⟩ = true) :
    ∃ b, Nurbs.fromRaw accepts p dim (ds.map (fun n : Nat => (n : ℚ))) kvs cps ws
      = some ⟨p, dim, b⟩ := by
  subst hds
  have h := nurbs_init_spec accepts dim ds ns kvs cps ws hns hkvs hkn hcps hws hacc
  exact ⟨_, by rw [Nurbs.fromRaw, h]; rfl⟩

/-- C11 (factory selects the matching kernel). For every `(para_dim, dim)` in
`{1,2} x {1,2}` and valid construction buffers, `SplinepyCreateBezier`
returns a Bezier and `SplinepyCreateNurbs` returns a NURBS whose
`SplinepyParaDim()` and `SplinepyDim()` are the requested values, with
`SplinepyHasKnotVectors()` and `SplinepyIsRational()` both false for the
Bezier and both true for the NURBS. -/
theorem factory_selects_kernel (accepts : ParameterSpace ℚ → Bool) (p d : Nat)
    (ds ns : List Nat) (kvs : List (List ℚ)) (cps_bezier cps_nurbs ws : List ℚ)
    (hp : p = 1 ∨ p = 2) (hd : d = 1 ∨ d = 2)
    (hds : ds.length = p) (hns : ns.length = p) (hkvs : kvs.length = p)
    (hcb : cps_bezier.length = (ds.map (fun n => n + 1)).prod * d)
    (hkn : ∀ i, i < p → (kvs.getD i []).length = ns.getD i 0 + ds.getD i 0 + 1)
    (hcn : cps_nurbs.length = ns.prod * d) (hws : ws.length = ns.prod)
    (hacc : accepts ⟨kvs, ds.map (fun n : Nat => (n : Int))⟩ = true) :
    (∃ b, SplinepyCreateBezier (p : Int) (d : Int) (ds.map (fun n : Nat => (n : ℚ)))
          cps_bezier = .returned b ∧
        b.SplinepyParaDim = (p : Int) ∧ b.SplinepyDim = (d : Int) ∧
        b.SplinepyHasKnotVectors = false ∧ b.SplinepyIsRational = false) ∧
    (∃ n, SplinepyCreateNurbs accepts (p : Int) (d : Int) (ds.map (fun n : Nat => (n : ℚ)))
          kvs cps_nurbs ws = .returned n ∧
        n.SplinepyParaDim = (p : Int) ∧ n.SplinepyDim = (d : Int) ∧
        n.SplinepyHasKnotVectors = true ∧ n.SplinepyIsRational = true) := by
  have hdpos : 0 < d := by omega
  obtain ⟨st, hb⟩ := bezier_fromRaw_spec p d ds cps_bezier hds hdpos hcb
  obtain ⟨nb, hn⟩ := nurbs_fromRaw_spec accepts p d ds ns kvs cps_nurbs ws hds hns hkvs hkn
    hcn hws hacc
  refine ⟨⟨⟨p, d, ⟨ds, st⟩⟩, ?_, rfl, rfl, rfl, rfl⟩, ⟨⟨p, d, nb⟩, ?_, rfl, rfl, rfl, rfl⟩⟩
  · rcases hp with hp | hp <;> rcases hd with hd | hd <;> subst hp <;> subst hd <;>
      simp [SplinepyCreateBezier, SplinepyCreateBezier.paraDimTwo, hb,
        Created.ofConstructor]
  · rcases hp with hp | hp <;> rcases hd with hd | hd <;> subst hp <;> subst hd <;>
      simp [SplinepyCreateNurbs, SplinepyCreateNurbs.paraDimTwo, hn, Created.ofConstructor]

/-- Witness for C11: the factories asked for a planar curve, the Bezier of
degree one and the NURBS of degree two. -/
theorem factory_selects_kernel_witness :
    (∃ b, SplinepyCreateBezier ((1 : Nat) : Int) ((2 : Nat) : Int)
          ([2].map (fun n : Nat => (n : ℚ))) [0, 0, 1, 1, 2, 0] = .returned b ∧
        b.SplinepyParaDim = ((1 : Nat) : Int) ∧ b.SplinepyDim = ((2 : Nat) : Int) ∧
        b.SplinepyHasKnotVectors = false ∧ b.SplinepyIsRational = false) ∧
    (∃ n, SplinepyCreateNurbs (fun _ => true) ((1 : Nat) : Int) ((2 : Nat) : Int)
          ([2].map (fun n : Nat => (n : ℚ))) [[0, 0, 0, 1, 1, 1]] [0, 0, 1, 1, 2, 0]
          [1, 2, 3] = .returned n ∧
        n.SplinepyParaDim = ((1 : Nat) : Int) ∧ n.SplinepyDim = ((2 : Nat) : Int) ∧
        n.SplinepyHasKnotVectors = true ∧ n.SplinepyIsRational = true) :=
  factory_selects_kernel (fun _ => true) 1 2 [2] [3] [[0, 0, 0, 1, 1, 1]]
    [0, 0, 1, 1, 2, 0] [0, 0, 1, 1, 2, 0] [1, 2, 3] (Or.inl rfl) (Or.inr rfl) rfl rfl rfl
    (by decide) (by intro i hi; interval_cases i; rfl) (by decide) (by decide) rfl

/-- For every `(para_dim, dim)` outside `{1,2} x {1,2}` and any buffers,
control leaves both factories through the closing brace: no kernel is
returned and no error is signalled. -/
theorem factory_outside_grid (accepts : ParameterSpace ℚ → Bool) (para_dim dim : Int)
    (degrees : List ℚ) (knot_vectors : List (List ℚ)) (cps weights : List ℚ)
    (hout : ¬ ((para_dim = 1 ∨ para_dim = 2) ∧ (dim = 1 ∨ dim = 2))) :
    SplinepyCreateBezier para_dim dim degrees cps = .noReturn ∧
    SplinepyCreateNurbs accepts para_dim dim degrees knot_vectors cps weights
      = .noReturn := by
  by_cases hp1 : para_dim = 1
  · subst hp1
    have hd1 : dim ≠ 1 := fun h => hout ⟨Or.inl rfl, Or.inl h⟩
    have hd2 : dim ≠ 2 := fun h => hout ⟨Or.inl rfl, Or.inr h⟩
    constructor
    · simp [SplinepyCreateBezier, SplinepyCreateBezier.paraDimTwo, hd1, hd2]
    · simp [SplinepyCreateNurbs, SplinepyCreateNurbs.paraDimTwo, hd1, hd2]
  · by_cases hp2 : para_dim = 2
    · subst hp2
      have hd1 : dim ≠ 1 := fun h => hout ⟨Or.inr rfl, Or.inl h⟩
      have hd2 : dim ≠ 2 := fun h => hout ⟨Or.inr rfl, Or.inr h⟩
      constructor
      · simp [SplinepyCreateBezier, SplinepyCreateBezier.paraDimTwo, hd1, hd2]
      · simp [SplinepyCreateNurbs, SplinepyCreateNurbs.paraDimTwo, hd1, hd2]
    · constructor
      · simp [SplinepyCreateBezier, hp1, hp2]
      · simp [SplinepyCreateNurbs, hp1, hp2]

/-- C12, evaluated on the code at `(para_dim, dim) = (1, 3)` and `(3, 1)`,
both outside the grid: `SplinepyCreateBezier(1, 3, ...)` and
`SplinepyCreateNurbs(3, 1, ...)` reach the closing brace without a `return`
and without signalling an error, whatever the buffers. -/
theorem factory_one_three_no_return (accepts : ParameterSpace ℚ → Bool)
    (degrees : List ℚ) (knot_vectors : List (List ℚ)) (cps weights : List ℚ) :
    SplinepyCreateBezier 1 3 degrees cps = .noReturn ∧
    SplinepyCreateNurbs accepts 3 1 degrees knot_vectors cps weights = .noReturn :=
  ⟨rfl, rfl⟩

theorem toSizeT_of_bounds (x : ℚ) (n : Nat) (h1 : (n : ℚ) ≤ x) (h2 : x < (n : ℚ) + 1) :
    toSizeT x = some n := by
  have hn : (0 : ℚ) ≤ (n : ℚ) := Nat.cast_nonneg n
  have hx : (-1 : ℚ) < x := by linarith
  have hf : ⌊x⌋ = (n : Int) := by
    rw [Int.floor_eq_iff]
    constructor
    · simpa using h1
    · simpa using h2
  simp [toSizeT, hx, hf]

/-- The degree loop of `Bezier::RawPtrInitHelper` on the degrees buffer
`[1.5, 1.5]`: the stored degrees are `[1, 1]` and `ncps` is `5`. -/
theorem bezier_degree_loop_fractional :
    forLoop 2
      (fun i (st : List Nat × Nat) =>
        (readAt [(3 / 2 : ℚ), 3 / 2] i).bind fun d =>
        (toSizeT d).bind fun di =>
        (writeAt st.1 i di).bind fun bm =>
        (toSizeT ((st.2 : ℚ) * (d + 1))).bind fun n =>
        some (bm, n))
      (List.replicate 2 0, 1) = some ([1, 1], 5) := by
  have h1 : toSizeT (3 / 2 : ℚ) = some 1 := toSizeT_of_bounds _ 1 (by norm_num) (by norm_num)
  have h2 : toSizeT (((1 : Nat) : ℚ) * (3 / 2 + 1)) = some 2 :=
    toSizeT_of_bounds _ 2 (by norm_num) (by norm_num)
  have h3 : toSizeT (((2 : Nat) : ℚ) * (3 / 2 + 1)) = some 5 :=
    toSizeT_of_bounds _ 5 (by norm_num) (by norm_num)
  rw [forLoop_succ, forLoop_succ]
  simp only [forLoop, Option.some_bind]
  have r0 : readAt [(3 / 2 : ℚ), 3 / 2] 0 = some (3 / 2) := rfl
  have r1 : readAt [(3 / 2 : ℚ), 3 / 2] 1 = some (3 / 2) := rfl
  rw [r0]
  simp only [Option.some_bind, h1]
  have w0 : writeAt (List.replicate 2 0) 0 1 = some [1, 0] := rfl
  rw [w0]
  simp only [Option.some_bind, h2]
  rw [r1]
  simp only [Option.some_bind, h1]
  have w1 : writeAt [1, 0] 1 1 = some [1, 1] := rfl
  rw [w1]
  simp only [Option.some_bind, h3]

/-- C13, evaluated on the code at the degrees buffer `[1.5, 1.5]` of a
scalar-valued `Bezier<2, 1>`: the stored degrees are `[1, 1]`, whose product
of `degree + 1` is `4`, and the constructor reads `5` control points, which
is what `SplinepyNumberOfControlPoints` then reports. -/
theorem bezier_count_fractional_degrees :
    ∃ b, Bezier.fromRaw 2 1 [3 / 2, 3 / 2] [0, 1, 2, 3, 4] = some b ∧
      b.base.degrees = [1, 1] ∧
      (b.base.degrees.map (fun n => n + 1)).prod = 4 ∧
      b.SplinepyNumberOfControlPoints = 5 := by
  obtain ⟨st, h1, h2, _⟩ := bezier_cp_loop 1 5 [0, 1, 2, 3, 4] (by decide) (by decide)
  refine ⟨⟨2, 1, ⟨[1, 1], st⟩⟩, ?_, rfl, rfl, ?_⟩
  · unfold Bezier.fromRaw Bezier.RawPtrInitHelper
    rw [bezier_degree_loop_fractional]
    simp only [Option.some_bind]
    rw [h1]
    rfl
  · simp [Bezier.SplinepyNumberOfControlPoints, h2]

/-! ## Derivative spline -/

/-- A loop whose body always succeeds is a left fold over the indices. -/
theorem forLoop_foldl {σ : Type} (g : σ → Nat → σ) (n : Nat)
    (body : Nat → σ → Option σ) (s : σ)
    (hbody : ∀ i, i < n → ∀ t, body i t = some (g t i)) :
    forLoop n body s = some ((List.range n).foldl g s) := by
  induction n with
  | zero => rfl
  | succ k ih =>
    rw [forLoop_succ, ih (fun i hi => hbody i (by omega)), Option.some_bind,
      hbody k (by omega), List.range_succ, List.foldl_append]
    rfl

theorem forLoop_iterate {σ : Type} (f : σ → σ) (n : Nat) (s : σ) :
    forLoop n (fun _ d => some (f d)) s = some (f^[n] s) := by
  induction n with
  | zero => rfl
  | succ k ih =>
    rw [forLoop_succ, ih, Option.some_bind, Function.iterate_succ_apply']

theorem foldl_iterate_zero {σ : Type} (f : σ → Nat → σ) (l : List Nat) (s : σ) :
    l.foldl (fun acc i => (fun d => f d i)^[0] acc) s = s := by
  induction l generalizing s with
  | nil => rfl
  | cons a t ih => simp

/-- C14 (DerivativeSpline is repeated axis differentiation). For every
Bezier and every tuple of non-negative orders, one per parametric axis,
`SplinepyDerivativeSpline` returns a new Bezier of the same type whose data
is the receiver's data differentiated `orders[i]` times along axis `i`, for
`i = 0 .. para_dim - 1` in increasing order; with all orders zero the result
equals the receiver. The call is a function of the receiver: it has no
receiver state to write to. -/
theorem derivative_spline_is_repeated_differentiation
    (differentiate : BezierSpline → Nat → BezierSpline) (self : Bezier) (orders : List Nat)
    (hlen : orders.length = self.para_dim) :
    self.SplinepyDerivativeSpline differentiate (orders.map (fun n : Nat => (n : Int)))
        = some ⟨self.para_dim, self.dim,
            repeatedAxisDifferentiation differentiate self.base orders⟩ ∧
    ((∀ n, n ∈ orders → n = 0) →
      self.SplinepyDerivativeSpline differentiate (orders.map (fun n : Nat => (n : Int)))
        = some self) := by
  have hmain : self.SplinepyDerivativeSpline differentiate
      (orders.map (fun n : Nat => (n : Int)))
      = some ⟨self.para_dim, self.dim,
          repeatedAxisDifferentiation differentiate self.base orders⟩ := by
    unfold Bezier.SplinepyDerivativeSpline repeatedAxisDifferentiation
    rw [forLoop_foldl
      (fun acc i => (fun d => differentiate d i)^[orders.getD i 0] acc) self.para_dim _
      self.base (by
        intro i hi t
        have hr : readAt (orders.map (fun n : Nat => (n : Int))) i
            = some ((orders.getD i 0 : Nat) : Int) := by
          have hi2 : i < orders.length := by omega
          simp [readAt, List.getD_eq_getElem?_getD, List.getElem?_eq_getElem hi2]
        dsimp only
        rw [hr, Option.some_bind, Int.toNat_natCast]
        exact forLoop_iterate (fun d => differentiate d i) _ t)]
    rw [hlen]
    rfl
  refine ⟨hmain, ?_⟩
  intro hzero
  rw [hmain]
  have hz : repeatedAxisDifferentiation differentiate self.base orders = self.base := by
    unfold repeatedAxisDifferentiation
    have : ∀ i, orders.getD i 0 = 0 := by
      intro i
      by_cases hi : i < orders.length
      · rw [List.getD_eq_getElem?_getD, List.getElem?_eq_getElem hi]
        exact hzero _ (List.getElem_mem hi)
      · rw [List.getD_eq_getElem?_getD, List.getElem?_eq_none (by omega)]
        rfl
    simp only [this]
    exact foldl_iterate_zero differentiate _ _
  rw [hz]

/-- Witness for C14: the unit square differentiated once along axis `0` and
not along axis `1`, and the unit square with both orders zero. -/
theorem derivative_spline_witness :
    unitSquare.SplinepyDerivativeSpline lowerDegree ([1, 0].map (fun n : Nat => (n : Int)))
        = some ⟨unitSquare.para_dim, unitSquare.dim,
            repeatedAxisDifferentiation lowerDegree unitSquare.base [1, 0]⟩ ∧
    unitSquare.SplinepyDerivativeSpline lowerDegree ([0, 0].map (fun n : Nat => (n : Int)))
        = some unitSquare :=
  ⟨(derivative_spline_is_repeated_differentiation lowerDegree unitSquare [1, 0] rfl).1,
    (derivative_spline_is_repeated_differentiation lowerDegree unitSquare [0, 0] rfl).2
      (by decide)⟩

/-! ## Proximity handle -/

/-- `SplinepyBasisAndSupport` is the typed overload applied to the copied
coordinate. -/
theorem basisFunctionsAndIDs_eq {α : Type} [Zero α] [One α] [Add α] [Mul α] [Div α]
    (lib : BasisFunctions α) (self : Nurbs α) (pc basis : List α) (support : List Int)
    (hpc : pc.length = self.para_dim) :
    Nurbs.BasisFunctionsAndIDs lib self pc basis support
      = Nurbs.SplinepyBasisAndSupport lib self pc basis support := by
  have hcopy : forLoop self.para_dim
      (fun i (o : List α) => (readAt pc i).bind fun u => writeAt o i u)
      (List.replicate self.para_dim 0) = some pc := by
    have h := @copy_loop α α ⟨0⟩ id pc (List.replicate self.para_dim 0) (by simp [hpc])
    rw [hpc] at h
    simpa using h
  unfold Nurbs.SplinepyBasisAndSupport Nurbs.BasisFunctionsAndIDs
  simp only [hcopy, Option.some_bind]

theorem raw_overload_no_result {α : Type} [Zero α] (self : Nurbs α)
    (pc basis : List α) (support : List Int) (fuel : Nat) :
    Nurbs.BasisFunctionsAndIDsRaw self pc basis support fuel = none := by
  induction fuel with
  | zero => rfl
  | succ k ih =>
    rw [Nurbs.BasisFunctionsAndIDsRaw, ih]
    cases forLoop self.para_dim
      (fun i (o : List α) => (readAt pc i).bind fun u => writeAt o i u)
      (List.replicate self.para_dim 0) <;> rfl

/-- C16, evaluated on the code at the degree-one curve with weights `1, 3`
and the coordinate `u = 1/2`: the typed overload returns the basis values
`1/4, 3/4` and the support ids `0, 1`; the raw-array overload returns
nothing, however deep its chain of self-calls is allowed to go. -/
theorem raw_overload_never_returns :
    Nurbs.BasisFunctionsAndIDs (linearBasisAtHalf ℚ (1 / 2)) sampleLine [1 / 2] [0, 0]
        [0, 0] = some ([1 / 4, 3 / 4], [0, 1]) ∧
    ∀ fuel, Nurbs.BasisFunctionsAndIDsRaw sampleLine [1 / 2] [0, 0] [0, 0] fuel
      = none := by
  refine ⟨?_, fun fuel => raw_overload_no_result _ _ _ _ fuel⟩
  rw [basisFunctionsAndIDs_eq _ _ _ _ _ rfl,
    basis_and_support_spec _ _ _ _ _ rfl (by
      intro k hk
      have hk2 : k < 2 := hk
      interval_cases k <;> simp [linearBasisAtHalf, sampleLine]) rfl rfl]
  have hW : Nurbs.totalWeight (linearBasisAtHalf ℚ (1 / 2)) sampleLine [1 / 2] = 2 := by
    simp [Nurbs.totalWeight, Nurbs.numerator, Nurbs.supportWeight, linearBasisAtHalf,
      sampleLine, List.range_succ]
    norm_num
  rw [hW]
  simp [Nurbs.numerator, Nurbs.supportWeight, linearBasisAtHalf, sampleLine,
    List.range_succ]
  norm_num

/-! ## Python bindings of the knot vector -/

theorem wrap_id_in_range (i : Int) (n : Nat)
    (hi : -(2 : Int) ^ 63 ≤ i ∧ i < (2 : Int) ^ 63) (hn : (n : Int) < (2 : Int) ^ 63)
    (h : -(n : Int) ≤ i ∧ i < (n : Int)) :
    wrap_id i n = .ok (if 0 ≤ i then i else i + (n : Int)) := by
  unfold wrap_id toDiffType
  by_cases h0 : i < 0
  · have hw : (i + (n : Int) + 2 ^ 63) % 2 ^ 64 - 2 ^ 63 = i + (n : Int) := by
      norm_num at hi hn ⊢
      omega
    have h1 : ¬ (0 ≤ i) := by omega
    simp only [if_pos h0, hw, if_neg h1]
    have h2 : ¬ (i + (n : Int) < 0 ∨ n ≤ (i + (n : Int)).toNat) := by omega
    rw [if_neg h2]
  · have h1 : 0 ≤ i := by omega
    simp only [if_neg h0, if_pos h1]
    have h2 : ¬ (i < 0 ∨ n ≤ i.toNat) := by omega
    rw [if_neg h2]

theorem wrap_id_out_of_range (i : Int) (n : Nat)
    (hi : -(2 : Int) ^ 63 ≤ i ∧ i < (2 : Int) ^ 63) (hn : (n : Int) < (2 : Int) ^ 63)
    (h : ¬ (-(n : Int) ≤ i ∧ i < (n : Int))) :
    wrap_id i n = .error PyError.index_error := by
  unfold wrap_id toDiffType
  by_cases h0 : i < 0
  · have hw : (i + (n : Int) + 2 ^ 63) % 2 ^ 64 - 2 ^ 63 = i + (n : Int) := by
      norm_num at hi hn ⊢
      omega
    simp only [if_pos h0, hw]
    have h2 : i + (n : Int) < 0 ∨ n ≤ (i + (n : Int)).toNat := by omega
    rw [if_pos h2]
  · simp only [if_neg h0]
    have h2 : i < 0 ∨ n ≤ i.toNat := by omega
    rw [if_pos h2]

/-- C17 (index wrapping). For every signed 64-bit index `i` and every vector
size `n` (below `2^63`): `wrap_id(i, n)` returns a value exactly when
`-n <= i < n`; the value `r` then satisfies `0 <= r < n`, is `i` for
`i >= 0` and `i + n` for `i < 0`; for every other `i`, and so for every `i`
when `n = 0`, it throws the index error. Consequently `__getitem__` and
`__setitem__` with an integer index either throw the index error or access
the knot at a position in `[0, n)`. -/
theorem wrap_id_spec (i : Int) (n : Nat)
    (hi : -(2 : Int) ^ 63 ≤ i ∧ i < (2 : Int) ^ 63) (hn : (n : Int) < (2 : Int) ^ 63) :
    ((-(n : Int) ≤ i ∧ i < (n : Int)) →
      ∃ r, wrap_id i n = .ok r ∧ 0 ≤ r ∧ r < (n : Int) ∧
        (0 ≤ i → r = i) ∧ (i < 0 → r = i + (n : Int))) ∧
    (¬ (-(n : Int) ≤ i ∧ i < (n : Int)) → wrap_id i n = .error PyError.index_error) ∧
    (n = 0 → wrap_id i n = .error PyError.index_error) ∧
    (∀ kv : KnotVector, kv.knots_.length = n →
      (kv.__getitem__ i = .error PyError.index_error ∨
        ∃ r x, 0 ≤ r ∧ r < (n : Int) ∧ readAt kv.knots_ r.toNat = some x ∧
          kv.__getitem__ i = .ok (some x)) ∧
      (∀ (UpdateKnot : KnotVector → Int → ℚ → Except PyError KnotVector) (knot : ℚ),
        kv.__setitem__ UpdateKnot i knot = .error PyError.index_error ∨
        ∃ r, 0 ≤ r ∧ r < (n : Int) ∧
          kv.__setitem__ UpdateKnot i knot = UpdateKnot kv r knot)) := by
  have hin : (-(n : Int) ≤ i ∧ i < (n : Int)) →
      ∃ r, wrap_id i n = .ok r ∧ 0 ≤ r ∧ r < (n : Int) ∧
        (0 ≤ i → r = i) ∧ (i < 0 → r = i + (n : Int)) := by
    intro h
    refine ⟨_, wrap_id_in_range i n hi hn h, ?_, ?_, ?_, ?_⟩
    · split <;> omega
    · split <;> omega
    · intro h0
      rw [if_pos h0]
    · intro h0
      rw [if_neg (by omega)]
  have hout := wrap_id_out_of_range i n hi hn
  refine ⟨hin, hout, ?_, ?_⟩
  · intro h0
    apply hout
    subst h0
    simp only [Nat.cast_zero]
    omega
  · intro kv hkv
    by_cases h : -(n : Int) ≤ i ∧ i < (n : Int)
    · obtain ⟨r, hr, hr0, hrn, _, _⟩ := hin h
      have hlt : r.toNat < kv.knots_.length := by omega
      constructor
      · right
        refine ⟨r, kv.knots_.getD r.toNat 0, hr0, hrn, readAt_getD _ _ _ hlt, ?_⟩
        unfold KnotVector.__getitem__
        rw [hkv, hr, ← readAt_getD _ _ _ hlt]
        rfl
      · intro UpdateKnot knot
        right
        refine ⟨r, hr0, hrn, ?_⟩
        unfold KnotVector.__setitem__
        rw [hkv, hr]
        rfl
    · constructor
      · left
        unfold KnotVector.__getitem__
        rw [hkv, hout h]
        rfl
      · intro UpdateKnot knot
        left
        unfold KnotVector.__setitem__
        rw [hkv, hout h]
        rfl

/-- Witness for C17: the index `-1` on a knot vector with four knots. -/
theorem wrap_id_spec_witness :
    ∃ r, wrap_id (-1) 4 = .ok r ∧ 0 ≤ r ∧ r < ((4 : Nat) : Int) ∧
      (0 ≤ (-1 : Int) → r = -1) ∧ ((-1 : Int) < 0 → r = -1 + ((4 : Nat) : Int)) :=
  (wrap_id_spec (-1) 4 (by norm_num) (by norm_num)).1 (by norm_num)

theorem slice_position_shift (start step k : Nat) :
    ((start + step) % 2 ^ 64 + k * step) % 2 ^ 64 = (start + (k + 1) * step) % 2 ^ 64 := by
  rw [Nat.succ_mul]
  generalize k * step = t
  norm_num
  omega

/-- The assignment loop of the slice `__setitem__` on a list of floats: the
positions `start, start + step, ...` (in `std::size_t` arithmetic) receive
the values in order and all other knots are kept. -/
theorem slice_loop_spec (vals : List ℚ) (step : Nat) :
    ∀ (r i start : Nat) (knots : List ℚ), i + r = vals.length → start < 2 ^ 64 →
      (∀ k, k < r → (start + k * step) % 2 ^ 64 < knots.length) →
      (∀ k1 k2, k1 < r → k2 < r →
        (start + k1 * step) % 2 ^ 64 = (start + k2 * step) % 2 ^ 64 → k1 = k2) →
      ∃ knots', sliceAssignLoop (vals.map PyValue.float) step r i start knots
          = some (knots', .ok ()) ∧
        knots'.length = knots.length ∧
        (∀ k, k < r → knots'[(start + k * step) % 2 ^ 64]? = vals[i + k]?) ∧
        (∀ p, (∀ k, k < r → (start + k * step) % 2 ^ 64 ≠ p) → knots'[p]? = knots[p]?) := by
  intro r
  induction r with
  | zero =>
    intro i start knots _ _ _ _
    exact ⟨knots, rfl, rfl, fun k hk => absurd hk (Nat.not_lt_zero k), fun p _ => rfl⟩
  | succ r ih =>
    intro i start knots hlen hstart hrange hinj
    have hi : i < vals.length := by omega
    have hmod0 : (start + 0 * step) % 2 ^ 64 = start := by
      rw [Nat.zero_mul, Nat.add_zero, Nat.mod_eq_of_lt hstart]
    have hs : start < knots.length := by
      have := hrange 0 (by omega)
      rwa [hmod0] at this
    have hread : readAt (vals.map PyValue.float) i = some (PyValue.float (vals.getD i 0)) := by
      simp [readAt, List.getD_eq_getElem?_getD, List.getElem?_eq_getElem hi]
    have hwrite : writeAt knots start (vals.getD i 0) = some (knots.set start (vals.getD i 0)) := by
      simp [writeAt, hs]
    obtain ⟨knots', h1, h2, h3, h4⟩ := ih (i + 1) ((start + step) % 2 ^ 64)
      (knots.set start (vals.getD i 0)) (by omega) (Nat.mod_lt _ (by norm_num))
      (by
        intro k hk
        rw [slice_position_shift, List.length_set]
        exact hrange (k + 1) (by omega))
      (by
        intro k1 k2 hk1 hk2 he
        rw [slice_position_shift, slice_position_shift] at he
        have := hinj (k1 + 1) (k2 + 1) (by omega) (by omega) he
        omega)
    refine ⟨knots', ?_, ?_, ?_, ?_⟩
    · rw [sliceAssignLoop, hread]
      simp only [hwrite, Option.some_bind]
      exact h1
    · rw [h2, List.length_set]
    · intro k hk
      cases k with
      | zero =>
        rw [hmod0, Nat.add_zero]
        rw [h4 start (by
          intro k hk he
          rw [slice_position_shift] at he
          have := hinj (k + 1) 0 (by omega) (by omega) (by rw [he, hmod0])
          omega)]
        simp [hs, List.getD_eq_getElem?_getD, List.getElem?_eq_getElem hi]
      | succ k =>
        have := h3 k (by omega)
        rw [slice_position_shift] at this
        rw [this]
        congr 1
        omega
    · intro p hp
      rw [h4 p (by
        intro k hk
        rw [slice_position_shift]
        exact hp (k + 1) (by omega))]
      have hne : start ≠ p := by
        have := hp 0 (by omega)
        rwa [hmod0] at this
      simp [List.getElem?_set, hne]

/-- C18, as it fails on the code: assigning `[5.0, 0.0]` to the slice
`[0:2]` of the knot vector `[0, 0, 1, 1]`. The call raises, because the
resulting knots are not non-decreasing, and the knot vector is left holding
`[5, 0, 1, 1]`. -/
theorem slice_assignment_not_atomic :
    KnotVector.__setitem__slice 2 ⟨[0, 0, 1, 1]⟩ sliceFirstTwo
        [PyValue.float 5, PyValue.float 0]
      = some (⟨[5, 0, 1, 1]⟩, .error PyError.knot_vector_error) ∧
    (⟨[5, 0, 1, 1]⟩ : KnotVector) ≠ ⟨[0, 0, 1, 1]⟩ := by
  constructor
  · have hloop : sliceAssignLoop [PyValue.float 5, PyValue.float 0] 1 2 0 0 [0, 0, 1, 1]
        = some ([5, 0, 1, 1], .ok ()) := by
      simp [sliceAssignLoop, readAt, writeAt]
    have hcheck : ThrowIfTooSmallOrNotNonDecreasing 2 [5, 0, 1, 1]
        = .error PyError.knot_vector_error := by
      simp [ThrowIfTooSmallOrNotNonDecreasing, List.Sorted]
    simp only [KnotVector.__setitem__slice, sliceFirstTwo, List.length_cons, List.length_nil]
    norm_num
    exact ⟨[5, 0, 1, 1], .ok (), hloop, by rw [hcheck]⟩
  · intro h
    have h2 := congrArg KnotVector.knots_ h
    simp at h2

/-- C18, amended. A slice assignment that raises because the slice length
differs from the length of the value list leaves the knots unchanged.
Otherwise, for a list of floats and the in-range, pairwise distinct
positions `start, start + step, ...` that `compute` yields, the knots at
these positions are replaced by the given values in order and all other
knots are kept; the call then returns exactly when the resulting knots pass
the size and order check, in which case they are non-decreasing, and raises
otherwise, with the replaced knots left in place. -/
theorem slice_assignment_spec (minimum : Nat) (kv : KnotVector) (slice : PySlice)
    (idx : SliceIndices) (vals : List ℚ)
    (hslice : slice kv.knots_.length = some idx) :
    (idx.slicelength ≠ vals.length →
      KnotVector.__setitem__slice minimum kv slice (vals.map PyValue.float)
        = some (kv, .error (PyError.runtime_error
            ("Left and right hand size of slice assignment have "
              ++ "different sizes.")))) ∧
    (idx.slicelength = vals.length → idx.start < 2 ^ 64 →
      (∀ k, k < idx.slicelength →
        (idx.start + k * idx.step) % 2 ^ 64 < kv.knots_.length) →
      (∀ k1 k2, k1 < idx.slicelength → k2 < idx.slicelength →
        (idx.start + k1 * idx.step) % 2 ^ 64 = (idx.start + k2 * idx.step) % 2 ^ 64 →
        k1 = k2) →
      ∃ knots', KnotVector.__setitem__slice minimum kv slice (vals.map PyValue.float)
          = some (⟨knots'⟩, ThrowIfTooSmallOrNotNonDecreasing minimum knots') ∧
        knots'.length = kv.knots_.length ∧
        (∀ k, k < idx.slicelength →
          knots'[(idx.start + k * idx.step) % 2 ^ 64]? = vals[k]?) ∧
        (∀ p, (∀ k, k < idx.slicelength → (idx.start + k * idx.step) % 2 ^ 64 ≠ p) →
          knots'[p]? = kv.knots_[p]?) ∧
        (ThrowIfTooSmallOrNotNonDecreasing minimum knots' = .ok () →
          knots'.Sorted (fun a b => a ≤ b) ∧ minimum ≤ knots'.length)) := by
  constructor
  · intro hne
    unfold KnotVector.__setitem__slice
    simp only [hslice, List.length_map]
    rw [if_pos hne]
  · intro heq hstart hrange hinj
    obtain ⟨knots', h1, h2, h3, h4⟩ := slice_loop_spec vals idx.step idx.slicelength 0
      idx.start kv.knots_ (by omega) hstart hrange hinj
    refine ⟨knots', ?_, h2, ?_, h4, ?_⟩
    · unfold KnotVector.__setitem__slice
      simp only [hslice, List.length_map]
      rw [if_neg (not_not.mpr heq), h1]
      rfl
    · intro k hk
      have := h3 k hk
      rwa [Nat.zero_add] at this
    · intro hok
      unfold ThrowIfTooSmallOrNotNonDecreasing at hok
      by_cases hc : knots'.length < minimum ∨ ¬ knots'.Sorted (fun a b => a ≤ b)
      · rw [if_pos hc] at hok
        cases hok
      · constructor
        · by_contra hs
          exact hc (Or.inr hs)
        · by_contra hm
          exact hc (Or.inl (by omega))

/-- Witness for the amended C18: assigning `[0.0, 0.5]` to the slice `[0:2]`
of the knot vector `[0, 0, 1, 1]`. -/
theorem slice_assignment_spec_witness :
    ∃ knots', KnotVector.__setitem__slice 2 ⟨[0, 0, 1, 1]⟩ sliceFirstTwo
          ([0, 1 / 2].map PyValue.float)
          = some (⟨knots'⟩, ThrowIfTooSmallOrNotNonDecreasing 2 knots') ∧
        knots'.length = 4 ∧
        (∀ k, k < 2 → knots'[(0 + k * 1) % 2 ^ 64]? = ([0, 1 / 2] : List ℚ)[k]?) ∧
        (∀ p, (∀ k, k < 2 → (0 + k * 1) % 2 ^ 64 ≠ p) →
          knots'[p]? = ([0, 0, 1, 1] : List ℚ)[p]?) ∧
        (ThrowIfTooSmallOrNotNonDecreasing 2 knots' = .ok () →
          knots'.Sorted (fun a b => a ≤ b) ∧ 2 ≤ knots'.length) :=
  (slice_assignment_spec 2 ⟨[0, 0, 1, 1]⟩ sliceFirstTwo ⟨0, 2, 1, 2⟩ [0, 1 / 2] rfl).2 rfl
    (by norm_num)
    (by
      intro k hk
      have hk2 : k < 2 := hk
      interval_cases k <;> simp)
    (by
      intro k1 k2 hk1 hk2 h
      have h1 : k1 < 2 := hk1
      have h2 : k2 < 2 := hk2
      interval_cases k1 <;> interval_cases k2 <;> simp_all)

end Splinepy
